import Mathlib

/-!
Verification of the talekeeper combat engine.

This file gives a shallow embedding, in Lean 4, of the combat subsystem of the
talekeeper repository, and proves (or refutes) the specification claims about
it.  The embedding covers three source modules:

* `backend/services/dice.py`      — the dice-notation roller (`DiceRoller.roll`),
  including its regex parsing of `NdM+K` strings;
* `backend/services/combat_engine.py` — the dataclass combat engine
  (`Combatant`, `CombatEngine.process_action`, attack/heal/special/movement
  resolution, death saves, defeat and end-of-combat detection, initiative);
* `services/combat.py`            — the desktop combat service
  (`Combatant`, `CombatService.attack`, `_check_combat_end`);
* `backend/routers/combat.py`     — two small pure fragments of the web router:
  its initiative tie-break key and its turn-order gate.

Randomness is modelled by oracle parameters: every call of Python's
`random.randint` reads one value from an explicit stream (a `List ℤ`), or is
passed in directly as a named argument (`d20`) where the source makes exactly
one d20 roll.  Python integers are `ℤ`; Python `//` by a positive constant is
`Int` division `/` (both are floor division).  Python code that can raise is
modelled in `Except String`; a `.error` value marks a raised exception.
Log strings are elided: no claim concerns the combat log.
-/

namespace TaleKeeper

/-- `backend/database.py` `GameQueries.ability_modifier` and the
`*_modifier` properties of the character/monster models: `(score - 10) // 2`,
Python floor division (Lean `Int` `/` by the positive constant 2 agrees). -/
def abilityModifier (score : ℤ) : ℤ := (score - 10) / 2

/-! ### Decimal digit strings

Python formats numbers with f-strings (`f"{num_dice}d{parts[1]}"`) and reads
them back with `int(...)` and the regexes `(\d+)d(\d+)` / `([+-]\d+)(?!d)`.
We model decimal printing with a fuel-based printer and prove the
print/parse round trip that the critical-hit dice doubling relies on. -/

/-- Numeric value of a decimal digit character. -/
def charDigitVal (c : Char) : ℕ := c.toNat - '0'.toNat

/-- Value of a string of decimal digits, most significant first
(Python `int(...)` on a digits-only string). -/
def valDigits (l : List Char) : ℕ := l.foldl (fun a c => 10 * a + charDigitVal c) 0

/-- Fuel-based decimal printer, accumulating digits from the right. -/
def natToCharsAux : ℕ → ℕ → List Char → List Char
  | 0, _, acc => acc
  | f + 1, n, acc =>
    if n < 10 then Nat.digitChar n :: acc
    else natToCharsAux f (n / 10) (Nat.digitChar (n % 10) :: acc)

/-- Decimal representation of a natural number (Python `f"{n}"`). -/
def natToChars (n : ℕ) : List Char := natToCharsAux (n + 1) n []

theorem natToCharsAux_append (f : ℕ) : ∀ (n : ℕ) (acc : List Char),
    natToCharsAux f n acc = natToCharsAux f n [] ++ acc := by
  induction f with
  | zero => intro n acc; simp [natToCharsAux]
  | succ f ih =>
    intro n acc
    by_cases h : n < 10
    · simp [natToCharsAux, h]
    · simp only [natToCharsAux, h, if_false]
      rw [ih (n / 10) (Nat.digitChar (n % 10) :: acc),
        ih (n / 10) (Nat.digitChar (n % 10) :: [])]
      simp

theorem natToCharsAux_fuel : ∀ (n f f' : ℕ), n < f → n < f' →
    natToCharsAux f n [] = natToCharsAux f' n [] := by
  intro n
  induction n using Nat.strong_induction_on with
  | _ n ih =>
    intro f f' hf hf'
    match f, f' with
    | f + 1, f' + 1 =>
      by_cases h : n < 10
      · simp [natToCharsAux, h]
      · simp only [natToCharsAux, h, if_false]
        have hdiv : n / 10 < n := Nat.div_lt_self (by omega) (by norm_num)
        rw [natToCharsAux_append f, natToCharsAux_append f',
          ih (n / 10) hdiv f f' (by omega) (by omega)]

theorem natToChars_of_lt (n : ℕ) (h : n < 10) :
    natToChars n = [Nat.digitChar n] := by
  simp [natToChars, natToCharsAux, h]

theorem natToChars_of_ge (n : ℕ) (h : 10 ≤ n) :
    natToChars n = natToChars (n / 10) ++ [Nat.digitChar (n % 10)] := by
  have hdiv : n / 10 < n := Nat.div_lt_self (by omega) (by norm_num)
  have h1 : natToChars n = natToCharsAux n (n / 10) [Nat.digitChar (n % 10)] := by
    simp [natToChars, natToCharsAux, show ¬ n < 10 by omega]
  rw [h1, natToCharsAux_append, natToCharsAux_fuel (n / 10) n (n / 10 + 1) (by omega) (by omega)]
  rfl

theorem digitChar_isDigit (d : ℕ) (h : d < 10) : (Nat.digitChar d).isDigit = true := by
  interval_cases d <;> decide

theorem charDigitVal_digitChar (d : ℕ) (h : d < 10) :
    charDigitVal (Nat.digitChar d) = d := by
  interval_cases d <;> decide

theorem natToChars_isDigit (n : ℕ) : ∀ c ∈ natToChars n, c.isDigit = true := by
  induction n using Nat.strong_induction_on with
  | _ n ih =>
    by_cases h : n < 10
    · rw [natToChars_of_lt n h]
      intro c hc
      simp at hc
      subst hc
      exact digitChar_isDigit n h
    · rw [natToChars_of_ge n (by omega)]
      intro c hc
      rcases List.mem_append.mp hc with h1 | h2
      · exact ih (n / 10) (Nat.div_lt_self (by omega) (by norm_num)) c h1
      · simp at h2
        subst h2
        exact digitChar_isDigit _ (Nat.mod_lt _ (by norm_num))

theorem natToChars_ne_nil (n : ℕ) : natToChars n ≠ [] := by
  by_cases h : n < 10
  · rw [natToChars_of_lt n h]; simp
  · rw [natToChars_of_ge n (by omega)]; simp

theorem valDigits_append (l : List Char) (c : Char) :
    valDigits (l ++ [c]) = 10 * valDigits l + charDigitVal c := by
  simp [valDigits, List.foldl_append]

theorem valDigits_natToChars (n : ℕ) : valDigits (natToChars n) = n := by
  induction n using Nat.strong_induction_on with
  | _ n ih =>
    by_cases h : n < 10
    · rw [natToChars_of_lt n h]
      simp [valDigits, charDigitVal_digitChar n h]
    · rw [natToChars_of_ge n (by omega), valDigits_append,
        ih (n / 10) (Nat.div_lt_self (by omega) (by norm_num)),
        charDigitVal_digitChar _ (Nat.mod_lt _ (by norm_num))]
      omega

/-! ### The dice-notation regexes of `backend/services/dice.py`

`DiceRoller` parses a notation with `re.findall` over the patterns
`(\d+)d(\d+)` (dice groups) and `([+-]\d+)(?!d)` (flat modifiers).  The
scanners below implement exactly the leftmost, non-overlapping, greedy
matching (with the one-digit backtrack that the negative lookahead forces on
the modifier pattern).  They use list-length fuel to make the recursion
structural; the fuel `length + 1` is always sufficient because every
recursive call strictly shrinks the character list. -/

/-- `re.findall(r'(\d+)d(\d+)', s)`, values of the two digit groups. -/
def scanDiceF : ℕ → List Char → List (ℕ × ℕ)
  | 0, _ => []
  | _ + 1, [] => []
  | f + 1, c :: cs =>
    if c.isDigit then
      let r1 := List.dropWhile Char.isDigit (c :: cs)
      if r1.headD ' ' == 'd' then
        let r2 := r1.tail
        let ds2 := r2.takeWhile Char.isDigit
        if ds2.isEmpty then scanDiceF f r1
        else
          (valDigits ((c :: cs).takeWhile Char.isDigit), valDigits ds2)
            :: scanDiceF f (r2.dropWhile Char.isDigit)
      else scanDiceF f r1
    else scanDiceF f cs

def scanDice (l : List Char) : List (ℕ × ℕ) := scanDiceF (l.length + 1) l

/-- Sign character of the modifier pattern. -/
def isSign (c : Char) : Bool := c = '+' || c = '-'

/-- Python `int` sign of a `+`/`-` character. -/
def signVal (c : Char) : ℤ := if c = '-' then -1 else 1

/-- `re.findall(r'([+-]\d+)(?!d)', s)` as integers.  The greedy digit group
backtracks one digit when the lookahead sees a `'d'`; with a single digit the
candidate fails entirely. -/
def scanModsF : ℕ → List Char → List ℤ
  | 0, _ => []
  | _ + 1, [] => []
  | f + 1, c :: cs =>
    if isSign c then
      let ds := List.takeWhile Char.isDigit cs
      let rest := List.dropWhile Char.isDigit cs
      if ds.isEmpty then scanModsF f cs
      else if rest.headD ' ' == 'd' then
        if 1 < ds.length then
          (signVal c * (valDigits ds.dropLast : ℤ))
            :: scanModsF f (ds.drop (ds.length - 1) ++ rest)
        else scanModsF f cs
      else (signVal c * (valDigits ds : ℤ)) :: scanModsF f rest
    else scanModsF f cs

def scanMods (l : List Char) : List ℤ := scanModsF (l.length + 1) l

/-! ### `DiceRoller.roll` -/

/-- Sum the dice groups, consuming one oracle value per `random.randint` call. -/
def rollGroups : List (ℕ × ℕ) → List ℤ → ℤ
  | [], _ => 0
  | (n, _) :: gs, rs => (rs.take n).sum + rollGroups gs (rs.drop n)

/-- `random.randint(1, die_size)` raises `ValueError` when `die_size = 0`
(the roller's `try`/`except` then returns 0). -/
def groupsRaise (gs : List (ℕ × ℕ)) : Bool := gs.any (fun g => 0 < g.1 && g.2 == 0)

/-- The characters of `"1d20"`. -/
def oneD20 : List Char := ['1', 'd', '2', '0']

/-- Python `s.replace("1d20", "")`: drop every occurrence, left to right. -/
def removeOneD20F : ℕ → List Char → List Char
  | 0, l => l
  | _ + 1, [] => []
  | f + 1, c :: cs =>
    if oneD20 <+: (c :: cs) then removeOneD20F f ((c :: cs).drop 4)
    else c :: removeOneD20F f cs

def removeOneD20 (l : List Char) : List Char := removeOneD20F (l.length + 1) l

/-- `DiceRoller._roll_with_advantage`: two d20 oracle values, keep the higher
(advantage) or lower, then add the modifiers of the notation with `"1d20"`
removed. -/
def rollWithAdvantage (nota : List Char) (advantage : Bool) (rs : List ℤ) : ℤ :=
  let roll1 := rs.getD 0 0
  let roll2 := rs.getD 1 0
  let base_roll := if advantage then max roll1 roll2 else min roll1 roll2
  base_roll + (scanMods (removeOneD20 nota)).sum

/-- `DiceRoller.roll(notation, advantage, disadvantage)`.  The oracle list
`rs` supplies the `random.randint` results in order.  The final
`max 0` is the source's `max(0, total)`; the `groupsRaise` branch is the
`except` clause returning 0 when `randint(1, 0)` raises. -/
def DiceRoller.roll (nota : String) (advantage disadvantage : Bool) (rs : List ℤ) : ℤ :=
  let l := nota.toList
  if decide (oneD20 <:+: l) && (advantage || disadvantage) then
    rollWithAdvantage l advantage rs
  else if groupsRaise (scanDice l) then 0
  else max 0 (rollGroups (scanDice l) rs + (scanMods l).sum)

/-- Decidable equality of `Except` results (used to evaluate the embedded
functions on concrete inputs). -/
instance instDecEqExcept {ε α : Type} [DecidableEq ε] [DecidableEq α] :
    DecidableEq (Except ε α) :=
  fun x y =>
    match x, y with
    | .error a, .error b =>
      match decEq a b with
      | isTrue h => isTrue (h ▸ rfl)
      | isFalse h => isFalse (fun hh => h (by cases hh; rfl))
    | .error _, .ok _ => isFalse (fun hh => by cases hh)
    | .ok _, .error _ => isFalse (fun hh => by cases hh)
    | .ok a, .ok b =>
      match decEq a b with
      | isTrue h => isTrue (h ▸ rfl)
      | isFalse h => isFalse (fun hh => h (by cases hh; rfl))

/-! ### Generic string helpers shared by the combat modules -/

/-- Python `sub in s` on strings. -/
def containsStr (sub s : String) : Bool := decide (sub.toList <:+: s.toList)

/-- Python `s.split('d')`. -/
def splitD : List Char → List (List Char)
  | [] => [[]]
  | c :: rest =>
    let r := splitD rest
    if c == 'd' then [] :: r
    else (c :: r.headD []) :: r.tail

/-- Python `s.isdigit()` (false on the empty string). -/
def pyIsDigits (l : List Char) : Bool := !l.isEmpty && l.all Char.isDigit

/-- Python `int(s)` on a piece of a dice string: succeeds exactly on a
non-empty all-digits string, otherwise `ValueError` (`none`). -/
def pyIntOfString? (l : List Char) : Option ℕ :=
  if pyIsDigits l then some (valDigits l) else none

/-- Python truthiness of an optional string (`None` and `""` are falsy). -/
def pyTruthyStrOpt (o : Option String) : Bool :=
  match o with
  | none => false
  | some s => !(s == "")

/-! ### Stable sorting

Python's `sorted(..., key=k, reverse=True)` and `list.sort(...)` are stable:
elements are ordered by descending key and equal-key elements keep their
original relative order.  A stable sort's output is uniquely determined by
the key relation, so we embed it as stable insertion: each element is
inserted after every already-placed element whose key is lexicographically
greater than or equal to its own. -/

/-- Descending comparison on `(ℤ × ℤ)` keys: `p` may stay before `q`. -/
def lexGe (p q : ℤ × ℤ) : Bool := decide (q.1 < p.1 ∨ (p.1 = q.1 ∧ q.2 ≤ p.2))

def insertDesc {α : Type} (key : α → ℤ × ℤ) (a : α) : List α → List α
  | [] => [a]
  | b :: bs => if lexGe (key b) (key a) then b :: insertDesc key a bs else a :: b :: bs

/-- Stable descending sort by a two-component key. -/
def stableSortDesc {α : Type} (key : α → ℤ × ℤ) (l : List α) : List α :=
  l.foldl (fun s a => insertDesc key a s) []

/-! ### `backend/services/combat_engine.py` -/

namespace Backend

/-- `ActionType` enum. -/
inductive ActionType
  | action
  | bonus_action
  | reaction
  | movement
  | free
deriving DecidableEq, Repr

/-- `CombatPosition` enum. -/
inductive CombatPosition
  | melee
  | ranged
deriving DecidableEq, Repr

def CombatPosition.value : CombatPosition → String
  | .melee => "melee"
  | .ranged => "ranged"

/-- The `Combatant` dataclass.  The `actions`/`bonus_actions`/`reactions`
descriptor lists and `ai_script` (used only by the monster AI, which no claim
concerns) are elided. -/
structure Combatant where
  id : String
  name : String := ""
  type : String := "player"
  max_hp : ℤ := 1
  current_hp : ℤ := 1
  ac : ℤ := 10
  initiative_bonus : ℤ := 0
  speed : ℤ := 30
  strength : ℤ := 10
  dexterity : ℤ := 10
  constitution : ℤ := 10
  intelligence : ℤ := 10
  wisdom : ℤ := 10
  charisma : ℤ := 10
  position : CombatPosition := .ranged
  initiative : ℤ := 0
  has_taken_action : Bool := false
  has_taken_bonus : Bool := false
  has_taken_reaction : Bool := false
  movement_remaining : ℤ := 30
  conditions : List String := []
  temp_hp : ℤ := 0
  death_saves_success : ℤ := 0
  death_saves_failure : ℤ := 0
deriving DecidableEq, Repr

/-- `Combatant.is_alive`. -/
def Combatant.is_alive (c : Combatant) : Bool := decide (0 < c.current_hp)

/-- `Combatant.take_damage`: temp HP first, then `current_hp = max(0, ...)`,
then the massive-damage check on the *remaining* damage (the local `damage`
variable after the temp-HP subtraction).  Returns the combatant and the
method's return value (`actual_damage`). -/
def Combatant.take_damage (c : Combatant) (damage : ℤ) : Combatant × ℤ :=
  let actual_damage := damage
  if 0 < c.temp_hp then
    if damage ≤ c.temp_hp then
      ({ c with temp_hp := c.temp_hp - damage }, 0)
    else
      let damage := damage - c.temp_hp
      let c1 : Combatant := { c with temp_hp := 0, current_hp := max 0 (c.current_hp - damage) }
      let c2 := if c1.current_hp = 0 ∧ c1.max_hp ≤ damage then
          { c1 with death_saves_failure := 3 } else c1
      (c2, actual_damage)
  else
    let c1 : Combatant := { c with current_hp := max 0 (c.current_hp - damage) }
    let c2 := if c1.current_hp = 0 ∧ c1.max_hp ≤ damage then
        { c1 with death_saves_failure := 3 } else c1
    (c2, actual_damage)

/-- `Combatant.heal`: healing from 0 HP clears both death-save counters,
then `current_hp = min(max_hp, current_hp + amount)`.  Returns the combatant
and the actual healing done. -/
def Combatant.heal (c : Combatant) (amount : ℤ) : Combatant × ℤ :=
  let c1 := if c.current_hp = 0 then
      { c with death_saves_success := 0, death_saves_failure := 0 } else c
  let old_hp := c1.current_hp
  let c2 := { c1 with current_hp := min c1.max_hp (c1.current_hp + amount) }
  (c2, c2.current_hp - old_hp)

/-- An action dictionary as consumed by `process_action` (the Python code
reads it with `action.get(key, default)`; the defaults here are those
defaults).  `type` is already decoded (`ActionType(action.get("type",
"action"))`). -/
structure ActionDict where
  type : ActionType := .action
  attack : Bool := false
  heal : Option String := none
  special : Bool := false
  name : String := "Special Ability"
  range : String := "melee"
  damage : String := "1d6"
  damage_bonus : ℤ := 0
  bonus : ℤ := 0
  position : CombatPosition := .ranged
  sub_action : String := "dash"
deriving DecidableEq, Repr

/-- A result dictionary: `none` fields are keys the Python dict does not
carry. -/
structure ResultDict where
  success : Bool := false
  description : String := ""
  error : Option String := none
  roll : Option ℤ := none
  attack_roll : Option ℤ := none
  damage : Option ℤ := none
  is_crit : Option Bool := none
  healing : Option ℤ := none
  extra_action : Option Bool := none
  movement_remaining : Option ℤ := none
deriving DecidableEq, Repr

/-- Reading the `damage` key of a result dict with `result.get("damage", 0)`:
an absent key reads as 0. -/
def ResultDict.damageValue (r : ResultDict) : ℤ := r.damage.getD 0

/-- The engine's `combatants` dict (`Dict[str, Combatant]`), in insertion
order. -/
def dictGet (m : List (String × Combatant)) (k : String) : Option Combatant :=
  (m.find? (fun p => p.1 == k)).map (fun p => p.2)

/-- Mutation of the combatant object stored under a key (keys are unique in
the engine's dict). -/
def dictModify (m : List (String × Combatant)) (k : String) (f : Combatant → Combatant) :
    List (String × Combatant) :=
  m.map (fun p => (p.1, if p.1 == k then f p.2 else p.2))

/-- `CombatEngine._can_take_action`. -/
def canTakeAction (c : Combatant) (t : ActionType) : Bool :=
  match t with
  | .action => !c.has_taken_action
  | .bonus_action => !c.has_taken_bonus
  | .reaction => !c.has_taken_reaction
  | .movement => decide (0 < c.movement_remaining)
  | .free => true

/-- `CombatEngine._mark_action_used` on one combatant. -/
def markActionUsed (c : Combatant) (t : ActionType) : Combatant :=
  match t with
  | .action => { c with has_taken_action := true }
  | .bonus_action => { c with has_taken_bonus := true }
  | .reaction => { c with has_taken_reaction := true }
  | .movement => c
  | .free => c

/-- The per-combatant effect of `CombatEngine._check_defeats`: a dead
combatant whose id is in the turn order and whose type is `"monster"` gets
`death_saves_failure = 3`. -/
def defeatFix (turn_order : List String) (c : Combatant) : Combatant :=
  if !c.is_alive && decide (c.id ∈ turn_order) && c.type == "monster" then
    { c with death_saves_failure := 3 }
  else c

/-- `CombatEngine._check_defeats` over the combatants dict. -/
def checkDefeatsMap (m : List (String × Combatant)) (turn_order : List String) :
    List (String × Combatant) :=
  m.map (fun p => (p.1, defeatFix turn_order p.2))

/-- The damage remaining after temporary-HP absorption: the value the
massive-damage branch of `take_damage` compares against `max_hp` (its local
`damage` variable after `damage -= self.temp_hp`). -/
def netDamage (c : Combatant) (damage : ℤ) : ℤ :=
  if 0 < c.temp_hp then damage - min c.temp_hp damage else damage

/-- The combatant fields that claim C2 lists: HP, temporary HP, conditions,
position and remaining movement. -/
def sameCoreFields (a b : Combatant) : Prop :=
  b.current_hp = a.current_hp ∧ b.temp_hp = a.temp_hp ∧ b.conditions = a.conditions ∧
    b.position = a.position ∧ b.movement_remaining = a.movement_remaining

/-- Equality of the three per-round action-economy flags. -/
def sameFlags (a b : Combatant) : Prop :=
  b.has_taken_action = a.has_taken_action ∧ b.has_taken_bonus = a.has_taken_bonus ∧
    b.has_taken_reaction = a.has_taken_reaction

/-- The in-place critical-hit transformation of `_process_attack`:
`parts = damage_dice.split('d')`; when there are exactly two parts the dice
count is `int(parts[0]) * 2` (raising `ValueError` if `parts[0]` is not a
number), otherwise the notation is left unchanged. -/
def critDouble (damage_dice : String) : Option String :=
  match splitD damage_dice.toList with
  | [p0, p1] =>
    match pyIntOfString? p0 with
    | some num_dice => some ⟨natToChars (num_dice * 2) ++ 'd' :: p1⟩
    | none => none
  | _ => some damage_dice

/-- `CombatEngine._process_attack`.  `d20` is the attack roll
(`self.dice.roll("1d20")`); `rs` is the oracle stream for the damage roll.
Returns the result dict and the (possibly damaged) target. -/
def processAttack (attacker : Combatant) (target : Option Combatant) (action : ActionDict)
    (d20 : ℤ) (rs : List ℤ) : Except String (ResultDict × Option Combatant) :=
  match target with
  | none => .ok ({ success := false, description := "Invalid target" }, none)
  | some t =>
    if !t.is_alive then
      .ok ({ success := false, description := "Invalid target" }, some t)
    else
      let is_melee := action.range == "melee"
      if is_melee && !(attacker.position == CombatPosition.melee) then
        .ok ({ success := false, description := "Not in melee range" }, some t)
      else
        let attack_bonus := action.bonus
        let attack_roll := d20
        let total_attack := attack_roll + attack_bonus
        let is_crit := attack_roll == 20
        let is_fumble := attack_roll == 1
        if is_fumble then
          .ok ({ success := false, description := "Critical miss!", roll := some attack_roll },
            some t)
        else if is_crit || (!is_fumble && decide (t.ac ≤ total_attack)) then
          match (if is_crit then critDouble action.damage else some action.damage) with
          | none => .error "ValueError: invalid literal for int"
          | some damage_dice =>
            let damage_roll := DiceRoller.roll damage_dice false false rs
            let total_damage := damage_roll + action.damage_bonus
            let t2 := (t.take_damage total_damage).1
            .ok ({ success := true, description := s!"Hit for {total_damage} damage",
                   attack_roll := some attack_roll, damage := some total_damage,
                   is_crit := some is_crit }, some t2)
        else
          .ok ({ success := false, description := "Attack missed",
                 attack_roll := some attack_roll }, some t)

/-- `CombatEngine._process_movement`. -/
def processMovement (c : Combatant) (action : ActionDict) : ResultDict × Combatant :=
  let new_position := action.position
  let old_position := c.position
  let c1 : Combatant := { c with position := new_position }
  let movement_used : ℤ := if new_position ≠ old_position then 15 else 0
  let c2 : Combatant := { c1 with movement_remaining := max 0 (c1.movement_remaining - movement_used) }
  ({ success := true, description := "Moved to " ++ new_position.value,
     movement_remaining := some c2.movement_remaining }, c2)

/-- `CombatEngine._process_healing` (self-heal; `rs` feeds the heal dice
roll). -/
def processHealing (c : Combatant) (action : ActionDict) (rs : List ℤ) : ResultDict × Combatant :=
  let heal_dice := action.heal.getD "2d4+2"
  let heal_amount := DiceRoller.roll heal_dice false false rs
  let hr := c.heal heal_amount
  ({ success := true, description := "Healed", healing := some hr.2 }, hr.1)

/-- The tail of `_process_special_ability`: the Sneak Attack check (whose
damage branch reads the missing `combatant.level` attribute, raising
`AttributeError`) and the final unknown-ability decline. -/
def processSpecialFall (combatants : List (String × Combatant)) (c : Combatant)
    (target : Option Combatant) (action : ActionDict) : Except String (ResultDict × Combatant) :=
  match target with
  | some t =>
    if containsStr "Sneak Attack" action.name then
      let can_sneak := (t.position == CombatPosition.melee) ||
        combatants.any (fun p =>
          !(p.2.id == c.id) && (p.2.position == CombatPosition.melee && p.2.type == "player"))
      if can_sneak then .error "AttributeError: Combatant has no attribute level"
      else .ok ({ success := false, description := "Unknown ability: " ++ action.name }, c)
    else .ok ({ success := false, description := "Unknown ability: " ++ action.name }, c)
  | none => .ok ({ success := false, description := "Unknown ability: " ++ action.name }, c)

/-- `CombatEngine._process_special_ability`.  The Second Wind branch reads
the missing `combatant.level` attribute and raises; the Cunning Action hide
branch only rolls for its log line (state unchanged, roll elided). -/
def processSpecialAbility (combatants : List (String × Combatant)) (c : Combatant)
    (target : Option Combatant) (action : ActionDict) : Except String (ResultDict × Combatant) :=
  let ability_name := action.name
  if containsStr "Second Wind" ability_name then
    .error "AttributeError: Combatant has no attribute level"
  else if containsStr "Action Surge" ability_name then
    .ok ({ success := true, description := "Action Surge: Gained additional action",
           extra_action := some true }, { c with has_taken_action := false })
  else if containsStr "Cunning Action" ability_name then
    if action.sub_action == "dash" then
      .ok ({ success := true, description := "Cunning Action: Dash" },
        { c with movement_remaining := c.movement_remaining + c.speed })
    else if action.sub_action == "disengage" then
      .ok ({ success := true, description := "Cunning Action: Disengage" },
        { c with conditions := c.conditions ++ ["disengaging"] })
    else if action.sub_action == "hide" then
      .ok ({ success := true, description := "Cunning Action: Hide" }, c)
    else processSpecialFall combatants c target action
  else processSpecialFall combatants c target action

/-- `CombatEngine.process_action`, acting on the combatants dict and reading
the turn order (for `_check_defeats`): validate the actor and the action
economy, dispatch, then `_mark_action_used` and `_check_defeats`. -/
def processActionCore (combatants : List (String × Combatant)) (turn_order : List String)
    (combatant_id : String) (action : ActionDict) (target_id : Option String)
    (d20 : ℤ) (rs : List ℤ) : Except String (List (String × Combatant) × ResultDict) :=
  match dictGet combatants combatant_id with
  | none => .ok (combatants, { error := some "Invalid combatant" })
  | some combatant =>
    let target := target_id.bind (dictGet combatants)
    let action_type := action.type
    if !(canTakeAction combatant action_type) then
      .ok (combatants, { error := some "Cannot take action - already used" })
    else
      let step : Except String (List (String × Combatant) × ResultDict) :=
        if action.attack then
          match processAttack combatant target action d20 rs with
          | .error e => .error e
          | .ok (res, tgt2) =>
            let m := match target_id, tgt2 with
              | some tid, some t2 => dictModify combatants tid (fun _ => t2)
              | _, _ => combatants
            .ok (m, res)
        else if pyTruthyStrOpt action.heal then
          let pr := processHealing combatant action rs
          .ok (dictModify combatants combatant_id (fun _ => pr.2), pr.1)
        else if action.special then
          match processSpecialAbility combatants combatant target action with
          | .error e => .error e
          | .ok (res, c2) => .ok (dictModify combatants combatant_id (fun _ => c2), res)
        else if action_type == ActionType.movement then
          let pr := processMovement combatant action
          .ok (dictModify combatants combatant_id (fun _ => pr.2), pr.1)
        else
          .ok (combatants, { success := false, description := "Unknown action type" })
      match step with
      | .error e => .error e
      | .ok (m1, result) =>
        let m2 := dictModify m1 combatant_id (fun c => markActionUsed c action_type)
        let m3 := checkDefeatsMap m2 turn_order
        .ok (m3, result)

/-- The `CombatEngine` state.  The combat log is elided (no claim concerns
it). -/
structure CombatEngine where
  combatants : List (String × Combatant) := []
  turn_order : List String := []
  current_turn : ℕ := 0
  round_number : ℤ := 0
  is_active : Bool := false
deriving DecidableEq, Repr

/-- `CombatEngine.process_action`.  The method reads and writes only the
combatants table (and the log, elided); it is factored through
`processActionCore` accordingly. -/
def CombatEngine.process_action (eng : CombatEngine) (combatant_id : String)
    (action : ActionDict) (target_id : Option String) (d20 : ℤ) (rs : List ℤ) :
    Except String (CombatEngine × ResultDict) :=
  (processActionCore eng.combatants eng.turn_order combatant_id action target_id d20 rs).map
    (fun p => ({ eng with combatants := p.1 }, p.2))

/-- The engine's current actor: `self.turn_order[self.current_turn]`
(as read by `get_combat_state` and by the web router). -/
def currentActorId (eng : CombatEngine) : Option String :=
  eng.turn_order.get? eng.current_turn

/-- `CombatEngine._process_death_save` for one invocation; `roll` is the
`1d20` result.  With three failures already accumulated the handler only
logs and returns — the roll argument is never consumed. -/
def processDeathSave (c : Combatant) (roll : ℤ) : Combatant :=
  if 3 ≤ c.death_saves_failure then c
  else if roll = 20 then
    let c1 := (c.heal 1).1
    { c1 with death_saves_success := 0, death_saves_failure := 0 }
  else if roll = 1 then
    { c with death_saves_failure := c.death_saves_failure + 2 }
  else if 10 ≤ roll then
    { c with death_saves_success := c.death_saves_success + 1 }
  else
    { c with death_saves_failure := c.death_saves_failure + 1 }

/-- `CombatEngine.check_combat_end`: `"defeat"` when no player-side
combatant is alive, else `"victory"` when no monster-side combatant is
alive, else `none`; a terminal outcome also clears `is_active`. -/
def CombatEngine.check_combat_end (eng : CombatEngine) : CombatEngine × Option String :=
  let players_alive := eng.combatants.any (fun p => p.2.type == "player" && p.2.is_alive)
  let monsters_alive := eng.combatants.any (fun p => p.2.type == "monster" && p.2.is_alive)
  if !players_alive then ({ eng with is_active := false }, some "defeat")
  else if !monsters_alive then ({ eng with is_active := false }, some "victory")
  else (eng, none)

end Backend

/-! ### `services/combat.py` (the desktop combat service) -/

namespace Desktop

/-- `CombatState` enum. -/
inductive CombatState
  | not_started
  | in_progress
  | player_victory
  | player_defeat
  | fled
deriving DecidableEq, Repr

/-- The desktop `Combatant` dataclass (`__post_init__` copies HP and AC from
the wrapped entity; the entity itself is elided, its derived fields are the
stored ones here). -/
structure Combatant where
  id : String
  name : String := ""
  type : String := "character"
  initiative : ℤ := 0
  current_hp : ℤ := 0
  max_hp : ℤ := 0
  armor_class : ℤ := 10
  is_alive : Bool := true
deriving DecidableEq, Repr

/-- Desktop `Combatant.take_damage` (no temporary HP in this model):
`actual = min(damage, current_hp)`, `current_hp = max(0, current_hp -
damage)`, refresh `is_alive`. -/
def Combatant.take_damage (c : Combatant) (damage : ℤ) : Combatant × ℤ :=
  let actual_damage := min damage c.current_hp
  let c1 : Combatant := { c with current_hp := max 0 (c.current_hp - damage) }
  let c2 : Combatant := { c1 with is_alive := decide (0 < c1.current_hp) }
  (c2, actual_damage)

/-- Desktop `Combatant.heal`. -/
def Combatant.heal (c : Combatant) (amount : ℤ) : Combatant × ℤ :=
  let actual_healing := min amount (c.max_hp - c.current_hp)
  let c1 : Combatant := { c with current_hp := min c.max_hp (c.current_hp + amount) }
  (c1, actual_healing)

/-- The `weapon_info` dict handed to `CombatService.attack` (the values the
code reads with `weapon_info.get(...)`; when the caller passes `None` the
same four fields are derived from the entity instead). -/
structure WeaponInfo where
  attack_bonus : ℤ := 0
  damage_dice : String := "1d4"
  damage_type : String := "bludgeoning"
  name : String := "Unknown Weapon"
deriving DecidableEq, Repr

/-- The `AttackResult` dataclass. -/
structure AttackResult where
  attacker_name : String
  target_name : String
  attack_roll : ℤ
  target_ac : ℤ
  hit : Bool
  critical : Bool
  fumble : Bool
  damage : ℤ := 0
  damage_type : String := "unknown"
  attack_dice_roll : ℤ := 0
  attack_bonus : ℤ := 0
  damage_dice_notation : String := ""
  damage_dice_roll : ℤ := 0
  damage_bonus : ℤ := 0
  weapon_name : String := ""
deriving DecidableEq, Repr

/-- The `CombatService` state (log elided). -/
structure CombatService where
  combatants : List Combatant := []
  turn_order : List String := []
  current_round : ℤ := 1
  current_turn : ℕ := 0
  state : CombatState := .not_started
deriving DecidableEq, Repr

/-- `CombatService._get_combatant_by_id` (first match). -/
def getCombatantById (svc : CombatService) (cid : String) : Option Combatant :=
  svc.combatants.find? (fun c => c.id == cid)

/-- In-place mutation of the (first) combatant with the given id. -/
def updateCombatant : List Combatant → String → Combatant → List Combatant
  | [], _, _ => []
  | c :: cs, cid, c2 => if c.id == cid then c2 :: cs else c :: updateCombatant cs cid c2

/-- `CombatService._check_combat_end`: player defeat when no character-side
combatant is alive, else victory when no monster is alive; otherwise the
state is left unchanged.  Returns `(service, ended)`. -/
def checkCombatEnd (svc : CombatService) : CombatService × Bool :=
  let alive_characters := svc.combatants.filter (fun c => c.type == "character" && c.is_alive)
  let alive_monsters := svc.combatants.filter (fun c => c.type == "monster" && c.is_alive)
  if alive_characters.isEmpty then ({ svc with state := CombatState.player_defeat }, true)
  else if alive_monsters.isEmpty then ({ svc with state := CombatState.player_victory }, true)
  else (svc, false)

/-- `re.match(r'(\d+d\d+)([+-]\d+)?', weapon_damage)`: an anchored match of
an `NdM` group (two non-empty maximal digit runs around a `'d'`) followed by
an optional sign-and-digits bonus group.  Returns the two digit runs and the
optional bonus `(sign, digits)`. -/
def reMatchDiceBonus (l : List Char) : Option ((List Char × List Char) × Option (Char × List Char)) :=
  let p0 := l.takeWhile Char.isDigit
  let r0 := l.dropWhile Char.isDigit
  if p0.isEmpty then none
  else if r0.headD ' ' == 'd' then
    let r1 := r0.tail
    let p1 := r1.takeWhile Char.isDigit
    let r2 := r1.dropWhile Char.isDigit
    if p1.isEmpty then none
    else if isSign (r2.headD ' ') then
      let ds := r2.tail.takeWhile Char.isDigit
      if ds.isEmpty then some ((p0, p1), none) else some ((p0, p1), some (r2.headD ' ', ds))
    else some ((p0, p1), none)
  else none

/-- The damage phase of `CombatService.attack` on a hit: parse the weapon
damage, double the dice on a critical, roll, and return
`(damage_dealt, damage_dice_roll, damage_bonus, damage_dice_notation)`
before the damage is applied to the target. -/
def attackDamage (weapon_damage : String) (is_critical : Bool) (rs : List ℤ) :
    ℤ × ℤ × ℤ × String :=
  match reMatchDiceBonus weapon_damage.toList with
  | some ((p0, p1), bonusPart) =>
    let damage_bonus : ℤ := match bonusPart with
      | some (sc, ds) => signVal sc * (valDigits ds : ℤ)
      | none => 0
    let bonusChars : List Char := match bonusPart with
      | some (sc, ds) => sc :: ds
      | none => []
    if is_critical then
      let doubled : List Char := natToChars (valDigits p0 * 2) ++ 'd' :: p1
      let damage_dice_roll := DiceRoller.roll ⟨doubled⟩ false false rs
      (damage_dice_roll + damage_bonus, damage_dice_roll, damage_bonus, ⟨doubled ++ bonusChars⟩)
    else
      let base : List Char := p0 ++ 'd' :: p1
      let damage_dice_roll := DiceRoller.roll ⟨base⟩ false false rs
      (damage_dice_roll + damage_bonus, damage_dice_roll, damage_bonus, weapon_damage)
  | none =>
    if pyIsDigits weapon_damage.toList then
      ((valDigits weapon_damage.toList : ℤ), (valDigits weapon_damage.toList : ℤ), 0, weapon_damage)
    else
      let d := DiceRoller.roll weapon_damage false false rs
      (d, d, 0, weapon_damage)

/-- `CombatService.attack` with an explicit `weapon_info`.  `d20` is
`random.randint(1, 20)`; `rs` feeds the damage dice roll.  Invalid or
defeated attacker/target raise `ValueError` (`.error`).  Ends by running
`_check_combat_end`. -/
def CombatService.attack (svc : CombatService) (attacker_id target_id : String)
    (weapon_info : WeaponInfo) (d20 : ℤ) (rs : List ℤ) :
    Except String (CombatService × AttackResult) :=
  match getCombatantById svc attacker_id, getCombatantById svc target_id with
  | some attacker, some target =>
    if !attacker.is_alive then .error (attacker.name ++ " cannot attack - defeated")
    else if !target.is_alive then .error ("Cannot target " ++ target.name ++ " - already defeated")
    else
      let attack_bonus := weapon_info.attack_bonus
      let weapon_damage := weapon_info.damage_dice
      let attack_dice_roll := d20
      let attack_total := attack_dice_roll + attack_bonus
      let is_critical := attack_dice_roll == 20
      let is_fumble := attack_dice_roll == 1
      let hits := is_critical || (!is_fumble && decide (target.armor_class ≤ attack_total))
      let step : ℤ × ℤ × ℤ × String × List Combatant :=
        if hits && !is_fumble then
          let dmg := attackDamage weapon_damage is_critical rs
          let tr := target.take_damage dmg.1
          (tr.2, dmg.2.1, dmg.2.2.1, dmg.2.2.2, updateCombatant svc.combatants target_id tr.1)
        else (0, 0, 0, weapon_damage, svc.combatants)
      let result : AttackResult := {
        attacker_name := attacker.name
        target_name := target.name
        attack_roll := attack_total
        target_ac := target.armor_class
        hit := hits
        critical := is_critical
        fumble := is_fumble
        damage := step.1
        damage_type := weapon_info.damage_type
        attack_dice_roll := attack_dice_roll
        attack_bonus := attack_bonus
        damage_dice_notation := step.2.2.2.1
        damage_dice_roll := step.2.1
        damage_bonus := step.2.2.1
        weapon_name := weapon_info.name }
      let svc1 : CombatService := { svc with combatants := step.2.2.2.2 }
      let pr := checkCombatEnd svc1
      .ok (pr.1, result)
  | _, _ => .error "Invalid attacker or target ID"

end Desktop

/-! ### `backend/routers/combat.py` (pure fragments) -/

namespace Router

/-- A combat participant row as the router sorts it. -/
structure CombatParticipant where
  character_id : Option String := none
  monster_id : Option String := none
  initiative : ℤ := 0
deriving DecidableEq, Repr

/-- The router's initiative sort key
(`lambda p: (p.initiative, ability_modifier(character.dexterity) if
p.character_id else ability_modifier(monsters[0].dexterity))`): every
monster participant is keyed by the dexterity of `monsters[0]`. -/
def routerSortKey (character_dexterity monster0_dexterity : ℤ) (p : CombatParticipant) : ℤ × ℤ :=
  (p.initiative,
    if p.character_id.isSome then abilityModifier character_dexterity
    else abilityModifier monster0_dexterity)

/-- `participants.sort(key=..., reverse=True)` in the router's
`start_combat` (Python sorts are stable). -/
def sortParticipants (character_dexterity monster0_dexterity : ℤ)
    (ps : List CombatParticipant) : List CombatParticipant :=
  stableSortDesc (routerSortKey character_dexterity monster0_dexterity) ps

/-- The turn-validation block of the router's `process_combat_action`
(lines 238–243): an out-of-turn actor makes the handler raise
`HTTPException(400, ...)` before any engine call; `none` means the check
passes.  (Participant ids are non-empty strings.) -/
def turnGate (current : CombatParticipant) (actor_id : String) : Option (ℕ × String) :=
  if current.character_id.isSome && !(current.character_id.getD "" == actor_id) then
    some (400, "Not your turn")
  else if current.monster_id.isSome && !(current.monster_id.getD "" == actor_id) then
    some (400, "Not this monster's turn")
  else none

end Router

/-! ## Lemmas

Generic facts about the scanners and parsers, used by the claim theorems
below. -/

theorem takeWhile_all {p : Char → Bool} : ∀ (l : List Char), (∀ c ∈ l, p c = true) →
    l.takeWhile p = l := by
  intro l h
  induction l with
  | nil => rfl
  | cons c t ih =>
    simp only [List.takeWhile_cons, h c (by simp), if_true]
    exact congrArg (c :: ·) (ih (fun x hx => h x (by simp [hx])))

theorem dropWhile_all {p : Char → Bool} : ∀ (l : List Char), (∀ c ∈ l, p c = true) →
    l.dropWhile p = [] := by
  intro l h
  induction l with
  | nil => rfl
  | cons c t ih =>
    simp only [List.dropWhile_cons, h c (by simp), if_true]
    exact ih (fun x hx => h x (by simp [hx]))

theorem takeWhile_append_stop {p : Char → Bool} (l₁ : List Char) (d : Char) (l₂ : List Char)
    (h1 : ∀ c ∈ l₁, p c = true) (h2 : p d = false) :
    (l₁ ++ d :: l₂).takeWhile p = l₁ := by
  induction l₁ with
  | nil => simp [List.takeWhile_cons, h2]
  | cons c t ih =>
    simp only [List.cons_append, List.takeWhile_cons, h1 c (by simp), if_true]
    exact congrArg (c :: ·) (ih (fun x hx => h1 x (by simp [hx])))

theorem dropWhile_append_stop {p : Char → Bool} (l₁ : List Char) (d : Char) (l₂ : List Char)
    (h1 : ∀ c ∈ l₁, p c = true) (h2 : p d = false) :
    (l₁ ++ d :: l₂).dropWhile p = d :: l₂ := by
  induction l₁ with
  | nil => simp [List.dropWhile_cons, h2]
  | cons c t ih =>
    simp only [List.cons_append, List.dropWhile_cons, h1 c (by simp), if_true]
    exact ih (fun x hx => h1 x (by simp [hx]))

theorem isDigit_not_sign (c : Char) (h : c.isDigit = true) : isSign c = false := by
  unfold isSign
  rcases eq_or_ne c '+' with rfl | h1
  · exact absurd h (by decide)
  rcases eq_or_ne c '-' with rfl | h2
  · exact absurd h (by decide)
  simp [beq_iff_eq, h1, h2]

theorem isDigit_beq_d (c : Char) (h : c.isDigit = true) : (c == 'd') = false := by
  rcases eq_or_ne c 'd' with rfl | h1
  · exact absurd h (by decide)
  simp [beq_iff_eq, h1]

theorem scanDiceF_nil (f : ℕ) : scanDiceF f [] = [] := by
  cases f <;> rfl

/-- `re.findall(r'(\d+)d(\d+)', ...)` on a pure `NdM` string finds the one
group pair. -/
theorem scanDice_form (ds1 ds2 : List Char) (h1 : ds1 ≠ []) (h2 : ds2 ≠ [])
    (hd1 : ∀ c ∈ ds1, c.isDigit = true) (hd2 : ∀ c ∈ ds2, c.isDigit = true) :
    scanDice (ds1 ++ 'd' :: ds2) = [(valDigits ds1, valDigits ds2)] := by
  obtain ⟨c, t, rfl⟩ : ∃ c t, ds1 = c :: t := by
    cases ds1 with
    | nil => exact absurd rfl h1
    | cons c t => exact ⟨c, t, rfl⟩
  have hc : c.isDigit = true := hd1 c (by simp)
  have hdrop : ((c :: t) ++ 'd' :: ds2).dropWhile Char.isDigit = 'd' :: ds2 :=
    dropWhile_append_stop _ _ _ hd1 (by decide)
  have htake : ((c :: t) ++ 'd' :: ds2).takeWhile Char.isDigit = c :: t :=
    takeWhile_append_stop _ _ _ hd1 (by decide)
  have htake2 : ds2.takeWhile Char.isDigit = ds2 := takeWhile_all ds2 hd2
  have hdrop2 : ds2.dropWhile Char.isDigit = [] := dropWhile_all ds2 hd2
  have hne : ds2.isEmpty = false := by
    cases ds2 with
    | nil => exact absurd rfl h2
    | cons _ _ => rfl
  rw [List.cons_append] at hdrop htake
  unfold scanDice
  simp only [List.cons_append]
  simp only [scanDiceF, hc, if_true]
  simp [hdrop, htake, htake2, hdrop2, hne, scanDiceF_nil]

theorem scanModsF_no_sign : ∀ (f : ℕ) (l : List Char), (∀ c ∈ l, isSign c = false) →
    scanModsF f l = [] := by
  intro f
  induction f with
  | zero => intro l _; rfl
  | succ f ih =>
    intro l h
    cases l with
    | nil => rfl
    | cons c cs =>
      simp only [scanModsF, h c (by simp), Bool.false_eq_true, if_false]
      exact ih cs (fun x hx => h x (by simp [hx]))

theorem scanMods_no_sign (l : List Char) (h : ∀ c ∈ l, isSign c = false) :
    scanMods l = [] := scanModsF_no_sign _ l h

theorem toList_mk (l : List Char) : String.toList ⟨l⟩ = l := rfl

/-- `DiceRoller.roll` on a pure `NdM` notation with a positive die size:
one dice group, no modifiers, no advantage branch — the result is the
clamped sum of the first `N` oracle values. -/
theorem roll_digits_form (p0 p1 : List Char) (rs : List ℤ)
    (h0 : p0 ≠ []) (h1 : p1 ≠ [])
    (hd0 : ∀ c ∈ p0, c.isDigit = true) (hd1 : ∀ c ∈ p1, c.isDigit = true)
    (hm : valDigits p1 ≠ 0) :
    DiceRoller.roll ⟨p0 ++ 'd' :: p1⟩ false false rs =
      max 0 ((rs.take (valDigits p0)).sum) := by
  have hsign : ∀ c ∈ p0 ++ 'd' :: p1, isSign c = false := by
    intro c hcm
    rcases List.mem_append.mp hcm with hcm | hcm
    · exact isDigit_not_sign c (hd0 c hcm)
    · rcases List.mem_cons.mp hcm with rfl | hcm
      · decide
      · exact isDigit_not_sign c (hd1 c hcm)
  unfold DiceRoller.roll
  rw [toList_mk]
  simp only [Bool.or_self, Bool.and_false, Bool.false_eq_true, if_false,
    scanDice_form p0 p1 h0 h1 hd0 hd1, scanMods_no_sign _ hsign]
  have hraise : groupsRaise [(valDigits p0, valDigits p1)] = false := by
    simp [groupsRaise, hm]
  rw [hraise]
  simp [rollGroups]

theorem splitD_no_d : ∀ (l : List Char), (∀ c ∈ l, (c == 'd') = false) →
    splitD l = [l] := by
  intro l h
  induction l with
  | nil => rfl
  | cons c t ih =>
    simp [splitD, ih (fun x hx => h x (by simp [hx])), h c (by simp)]

theorem splitD_append_d (p0 p1 : List Char)
    (h0 : ∀ c ∈ p0, (c == 'd') = false) (h1 : ∀ c ∈ p1, (c == 'd') = false) :
    splitD (p0 ++ 'd' :: p1) = [p0, p1] := by
  induction p0 with
  | nil =>
    simp [splitD, splitD_no_d p1 h1]
  | cons c t ih =>
    have ih2 := ih (fun x hx => h0 x (by simp [hx]))
    simp [splitD, ih2, h0 c (by simp)]

/-- The digits of the crit-doubled dice count, as produced by
`f"{num_dice}d{...}"`. -/
theorem critDouble_of_form (dd : String) (p0 p1 : List Char)
    (hl : dd.toList = p0 ++ 'd' :: p1) (h0 : p0 ≠ []) (h1 : p1 ≠ [])
    (hd0 : ∀ c ∈ p0, c.isDigit = true) (hd1 : ∀ c ∈ p1, c.isDigit = true) :
    Backend.critDouble dd = some ⟨natToChars (valDigits p0 * 2) ++ 'd' :: p1⟩ := by
  unfold Backend.critDouble
  rw [hl, splitD_append_d p0 p1 (fun c hc => isDigit_beq_d c (hd0 c hc))
    (fun c hc => isDigit_beq_d c (hd1 c hc))]
  have hint : pyIntOfString? p0 = some (valDigits p0) := by
    unfold pyIntOfString? pyIsDigits
    have hne : p0.isEmpty = false := by
      cases p0 with
      | nil => exact absurd rfl h0
      | cons _ _ => rfl
    simp only [hne, Bool.not_false, Bool.true_and, List.all_eq_true]
    exact if_pos hd0
  simp [hint]

/-! ## Claim theorems -/

/-- C10: for every notation string (with the default advantage flags),
`DiceRoller.roll` returns a non-negative integer; on `1d4-10` the total is
clamped to 0 for every in-range die value; a notation in which neither regex
finds anything yields 0 rather than raising. -/
theorem claim_C10_roll_nonnegative :
    (∀ (nota : String) (rs : List ℤ), 0 ≤ DiceRoller.roll nota false false rs) ∧
    (∀ r : ℤ, 1 ≤ r → r ≤ 4 → DiceRoller.roll "1d4-10" false false [r] = 0) ∧
    (∀ (nota : String) (rs : List ℤ), scanDice nota.toList = [] → scanMods nota.toList = [] →
      DiceRoller.roll nota false false rs = 0) := by
  refine ⟨?_, ?_, ?_⟩
  · intro nota rs
    unfold DiceRoller.roll
    simp only [Bool.or_self, Bool.and_false, Bool.false_eq_true, if_false]
    split_ifs
    · exact le_refl 0
    · exact le_max_left 0 _
  · intro r hr1 hr4
    have h1 : scanDice ("1d4-10".toList) = [(1, 4)] := by decide
    have h2 : scanMods ("1d4-10".toList) = [-10] := by decide
    unfold DiceRoller.roll
    simp only [Bool.or_self, Bool.and_false, Bool.false_eq_true, if_false, h1, h2]
    have h3 : groupsRaise [(1, 4)] = false := by decide
    rw [h3]
    simp only [Bool.false_eq_true, if_false, rollGroups]
    simp [rollGroups]
    omega
  · intro nota rs hd hm
    unfold DiceRoller.roll
    simp only [Bool.or_self, Bool.and_false, Bool.false_eq_true, if_false, hd, hm]
    simp [groupsRaise, rollGroups]

/-- Witness for C10 at concrete inputs. -/
theorem claim_C10_witness :
    (0 ≤ DiceRoller.roll "2d6+3" false false [4, 5]) ∧
    (DiceRoller.roll "1d4-10" false false [3] = 0) ∧
    (DiceRoller.roll "hello" false false [7] = 0) :=
  ⟨claim_C10_roll_nonnegative.1 "2d6+3" [4, 5],
   claim_C10_roll_nonnegative.2.1 3 (by decide) (by decide),
   claim_C10_roll_nonnegative.2.2 "hello" [7] (by decide) (by decide)⟩

/-- C5: the engine's `take_damage` consumes temporary HP strictly before
current HP and never drives current HP below 0 (characterized exactly:
new temp HP is `max 0 (temp - damage)` and new current HP is
`max 0 (hp - max 0 (damage - temp))`); the desktop `take_damage` also never
drives current HP below 0. -/
theorem claim_C5_temp_hp_first :
    (∀ (c : Backend.Combatant) (damage : ℤ), 0 ≤ damage → 0 ≤ c.current_hp → 0 ≤ c.temp_hp →
      (c.take_damage damage).1.temp_hp = max 0 (c.temp_hp - damage) ∧
      (c.take_damage damage).1.current_hp = max 0 (c.current_hp - max 0 (damage - c.temp_hp)) ∧
      0 ≤ (c.take_damage damage).1.current_hp) ∧
    (∀ (dc : Desktop.Combatant) (damage : ℤ), 0 ≤ (dc.take_damage damage).1.current_hp) := by
  constructor
  · intro c damage h0 h1 h2
    simp only [Backend.Combatant.take_damage]
    split_ifs <;> simp_all <;> omega
  · intro dc damage
    simp only [Desktop.Combatant.take_damage]
    exact le_max_left 0 _

/-- Witness for C5: 5 temporary HP and 10 current HP, 8 damage, ends at
0 temporary HP and 7 current HP. -/
theorem claim_C5_witness :
    (Backend.Combatant.take_damage
      { id := "c", temp_hp := 5, current_hp := 10, max_hp := 20 } 8).1.temp_hp = 0 ∧
    (Backend.Combatant.take_damage
      { id := "c", temp_hp := 5, current_hp := 10, max_hp := 20 } 8).1.current_hp = 7 := by
  have h := claim_C5_temp_hp_first.1
    { id := "c", temp_hp := 5, current_hp := 10, max_hp := 20 } 8
    (by decide) (by decide) (by decide)
  refine ⟨?_, ?_⟩
  · rw [h.1]; decide
  · rw [h.2.1]; decide

/-- C6: one invocation of the death-save handler on a combatant at 0 HP with
fewer than three failures: natural 20 restores 1 HP and clears both
counters; natural 1 adds two failures; 10–19 adds one success; 2–9 adds one
failure; and the roll sequence 8, 2, 15 from zero prior progress ends with
exactly 2 failures and 1 success — under three on both counters, so the
combatant is neither dead nor stable. -/
theorem claim_C6_death_save_handler :
    (∀ (c : Backend.Combatant) (roll : ℤ), c.current_hp = 0 → c.death_saves_failure < 3 →
      ((roll = 20 → 1 ≤ c.max_hp →
        (Backend.processDeathSave c roll).current_hp = 1 ∧
        (Backend.processDeathSave c roll).death_saves_success = 0 ∧
        (Backend.processDeathSave c roll).death_saves_failure = 0) ∧
       (roll = 1 →
        (Backend.processDeathSave c roll).death_saves_failure = c.death_saves_failure + 2 ∧
        (Backend.processDeathSave c roll).death_saves_success = c.death_saves_success) ∧
       (10 ≤ roll → roll ≤ 19 →
        (Backend.processDeathSave c roll).death_saves_success = c.death_saves_success + 1 ∧
        (Backend.processDeathSave c roll).death_saves_failure = c.death_saves_failure) ∧
       (2 ≤ roll → roll ≤ 9 →
        (Backend.processDeathSave c roll).death_saves_failure = c.death_saves_failure + 1 ∧
        (Backend.processDeathSave c roll).death_saves_success = c.death_saves_success))) ∧
    (∀ c : Backend.Combatant, c.current_hp = 0 →
      c.death_saves_success = 0 → c.death_saves_failure = 0 →
      (Backend.processDeathSave (Backend.processDeathSave
          (Backend.processDeathSave c 8) 2) 15).death_saves_failure = 2 ∧
      (Backend.processDeathSave (Backend.processDeathSave
          (Backend.processDeathSave c 8) 2) 15).death_saves_success = 1 ∧
      (Backend.processDeathSave (Backend.processDeathSave
          (Backend.processDeathSave c 8) 2) 15).death_saves_failure < 3 ∧
      (Backend.processDeathSave (Backend.processDeathSave
          (Backend.processDeathSave c 8) 2) 15).death_saves_success < 3) := by
  constructor
  · intro c roll hhp hfail
    refine ⟨?_, ?_, ?_, ?_⟩
    · intro h20 hmax
      subst h20
      simp only [Backend.processDeathSave]
      rw [if_neg (show ¬ (3 : ℤ) ≤ c.death_saves_failure by omega)]
      norm_num [Backend.Combatant.heal, hhp]
      omega
    · intro h1
      subst h1
      simp only [Backend.processDeathSave]
      rw [if_neg (show ¬ (3 : ℤ) ≤ c.death_saves_failure by omega)]
      norm_num
    · intro h10 h19
      simp only [Backend.processDeathSave]
      rw [if_neg (show ¬ (3 : ℤ) ≤ c.death_saves_failure by omega),
        if_neg (show ¬ roll = 20 by omega), if_neg (show ¬ roll = 1 by omega), if_pos h10]
      exact ⟨rfl, rfl⟩
    · intro h2 h9
      simp only [Backend.processDeathSave]
      rw [if_neg (show ¬ (3 : ℤ) ≤ c.death_saves_failure by omega),
        if_neg (show ¬ roll = 20 by omega), if_neg (show ¬ roll = 1 by omega),
        if_neg (show ¬ (10 : ℤ) ≤ roll by omega)]
      exact ⟨rfl, rfl⟩
  · intro c hhp hs hf
    have s1 : Backend.processDeathSave c 8 =
        { c with death_saves_failure := c.death_saves_failure + 1 } := by
      simp only [Backend.processDeathSave]
      rw [if_neg (show ¬ (3 : ℤ) ≤ c.death_saves_failure by omega)]
      norm_num
    have s2 : Backend.processDeathSave (Backend.processDeathSave c 8) 2 =
        { c with death_saves_failure := c.death_saves_failure + 1 + 1 } := by
      rw [s1]
      simp only [Backend.processDeathSave]
      rw [if_neg (show ¬ (3 : ℤ) ≤ c.death_saves_failure + 1 by omega)]
      norm_num
    have s3 : Backend.processDeathSave (Backend.processDeathSave
        (Backend.processDeathSave c 8) 2) 15 =
        { c with death_saves_failure := c.death_saves_failure + 1 + 1,
                 death_saves_success := c.death_saves_success + 1 } := by
      rw [s2]
      simp only [Backend.processDeathSave]
      rw [if_neg (show ¬ (3 : ℤ) ≤ c.death_saves_failure + 1 + 1 by omega)]
      norm_num
    rw [s3]
    exact ⟨by show c.death_saves_failure + 1 + 1 = 2; omega,
      by show c.death_saves_success + 1 = 1; omega,
      by show c.death_saves_failure + 1 + 1 < 3; omega,
      by show c.death_saves_success + 1 < 3; omega⟩

/-- Witness for C6 at a concrete downed combatant. -/
theorem claim_C6_witness :
    (Backend.processDeathSave
      { id := "c", current_hp := 0, max_hp := 10 } 20).current_hp = 1 ∧
    (Backend.processDeathSave (Backend.processDeathSave (Backend.processDeathSave
      { id := "c", current_hp := 0, max_hp := 10 } 8) 2) 15).death_saves_failure = 2 := by
  have h1 := (claim_C6_death_save_handler.1
    { id := "c", current_hp := 0, max_hp := 10 } 20 (by decide) (by decide)).1
    rfl (by decide)
  have h2 := claim_C6_death_save_handler.2
    { id := "c", current_hp := 0, max_hp := 10 } (by decide) (by decide) (by decide)
  exact ⟨h1.1, h2.1⟩

/-- C7 counterexample: `heal` on a combatant with three accumulated
death-save failures (dead) brings it back above 0 HP and resets the failure
counter — refuting "no subsequent engine operation ever returns them to a
state with current_hp > 0 or resets their failure counter below 3". -/
theorem claim_C7_counterexample :
    0 < (Backend.Combatant.heal
      { id := "c", current_hp := 0, max_hp := 10, death_saves_failure := 3 } 5).1.current_hp ∧
    (Backend.Combatant.heal
      { id := "c", current_hp := 0, max_hp := 10, death_saves_failure := 3 } 5).1.death_saves_failure
      < 3 := by decide

/-- C7 (amended): once `death_saves_failure` reaches 3 the death-save
handler never changes the combatant (no revival, no counter reset); `heal`,
however, resets both counters for any combatant at 0 HP and raises its HP to
`min max_hp amount`, reviving even a dead combatant. -/
theorem claim_C7_death_terminal :
    (∀ (c : Backend.Combatant) (roll : ℤ), 3 ≤ c.death_saves_failure →
      Backend.processDeathSave c roll = c) ∧
    (∀ (c : Backend.Combatant) (amount : ℤ), c.current_hp = 0 →
      (c.heal amount).1.death_saves_failure = 0 ∧
      (c.heal amount).1.death_saves_success = 0 ∧
      (c.heal amount).1.current_hp = min c.max_hp amount) := by
  constructor
  · intro c roll h
    simp only [Backend.processDeathSave, h, if_pos]
  · intro c amount hhp
    simp only [Backend.Combatant.heal]
    split_ifs <;> simp_all

/-- Witness for C7 at concrete inputs. -/
theorem claim_C7_witness :
    Backend.processDeathSave
      { id := "c", current_hp := 0, death_saves_failure := 3 } 20 =
      { id := "c", current_hp := 0, death_saves_failure := 3 } ∧
    (Backend.Combatant.heal
      { id := "c", current_hp := 0, max_hp := 10, death_saves_failure := 3 } 4).1.current_hp =
      min 10 4 := by
  refine ⟨claim_C7_death_terminal.1 _ 20 (by decide), ?_⟩
  have h := (claim_C7_death_terminal.2
    { id := "c", current_hp := 0, max_hp := 10, death_saves_failure := 3 } 4 (by decide)).2.2
  exact h

/-- C4 counterexample: a hit of 10 damage (equal to `max_hp`) on a combatant
with 5 temporary HP and 1 current HP reduces it to exactly 0 HP, yet
`death_saves_failure` is not 3: the massive-damage check compares `max_hp`
against the damage left after temporary-HP absorption, not against the
damage dealt by the hit. -/
theorem claim_C4_counterexample :
    (Backend.Combatant.take_damage
      { id := "c", temp_hp := 5, current_hp := 1, max_hp := 10 } 10).1.current_hp = 0 ∧
    (Backend.Combatant.take_damage
      { id := "c", temp_hp := 5, current_hp := 1, max_hp := 10 } 10).2 = 10 ∧
    ({ id := "c", temp_hp := 5, current_hp := 1, max_hp := 10 } : Backend.Combatant).max_hp ≤ 10 ∧
    (Backend.Combatant.take_damage
      { id := "c", temp_hp := 5, current_hp := 1, max_hp := 10 } 10).1.death_saves_failure ≠ 3 :=
  by decide

/-- C4 (amended): whenever one `take_damage` call leaves a combatant (with
positive `max_hp`) at exactly 0 current HP and the damage remaining after
temporary-HP absorption is at least `max_hp`, the combatant has
`death_saves_failure = 3` immediately, and the death-save handler never
changes its state (no roll is consumed). -/
theorem claim_C4_massive_damage :
    ∀ (c : Backend.Combatant) (damage : ℤ), 0 < c.max_hp →
      (c.take_damage damage).1.current_hp = 0 →
      c.max_hp ≤ Backend.netDamage c damage →
      (c.take_damage damage).1.death_saves_failure = 3 ∧
      (∀ roll : ℤ, Backend.processDeathSave (c.take_damage damage).1 roll =
        (c.take_damage damage).1) := by
  intro c damage hmax hzero hnet
  have hfail : (c.take_damage damage).1.death_saves_failure = 3 := by
    by_cases ht : 0 < c.temp_hp
    · by_cases hd : damage ≤ c.temp_hp
      · simp only [Backend.netDamage, if_pos ht, min_eq_right hd] at hnet
        omega
      · have hnet2 : c.max_hp ≤ damage - c.temp_hp := by
          simp only [Backend.netDamage, if_pos ht,
            min_eq_left (by omega : c.temp_hp ≤ damage)] at hnet
          exact hnet
        simp only [Backend.Combatant.take_damage, if_pos ht, if_neg hd] at hzero ⊢
        split_ifs at hzero ⊢ with hc
        · rfl
        · exact absurd ⟨hzero, hnet2⟩ hc
    · have hnet2 : c.max_hp ≤ damage := by
        simp only [Backend.netDamage, if_neg ht] at hnet
        exact hnet
      simp only [Backend.Combatant.take_damage, if_neg ht] at hzero ⊢
      split_ifs at hzero ⊢ with hc
      · rfl
      · exact absurd ⟨hzero, hnet2⟩ hc
  refine ⟨hfail, fun roll => ?_⟩
  simp only [Backend.processDeathSave, hfail]
  norm_num

theorem except_map_map {ε α β γ : Type} (e : Except ε α) (f : α → β) (g : β → γ) :
    (e.map f).map g = e.map (fun a => g (f a)) := by cases e <;> rfl

/-- Field behaviour of the desktop `_check_combat_end`: the resulting state
follows the defeat/victory/unchanged rule (the combatant list is untouched,
so the conditions may equivalently be read off the result) and the
scheduler cursor fields are unchanged. -/
theorem checkCombatEnd_fields (svc : Desktop.CombatService) :
    (Desktop.checkCombatEnd svc).1.combatants = svc.combatants ∧
    (Desktop.checkCombatEnd svc).1.current_turn = svc.current_turn ∧
    (Desktop.checkCombatEnd svc).1.turn_order = svc.turn_order ∧
    (Desktop.checkCombatEnd svc).1.state =
      (if (svc.combatants.filter (fun c => c.type == "character" && c.is_alive)).isEmpty = true
       then Desktop.CombatState.player_defeat
       else if (svc.combatants.filter (fun c => c.type == "monster" && c.is_alive)).isEmpty = true
       then Desktop.CombatState.player_victory
       else svc.state) := by
  simp only [Desktop.checkCombatEnd]
  split_ifs with hc hm
  · exact ⟨rfl, rfl, rfl, rfl⟩
  · exact ⟨rfl, rfl, rfl, rfl⟩
  · exact ⟨rfl, rfl, rfl, rfl⟩

theorem checkCombatEnd_state (svc : Desktop.CombatService) :
    (Desktop.checkCombatEnd svc).1.state =
      (if ((Desktop.checkCombatEnd svc).1.combatants.filter
          (fun c => c.type == "character" && c.is_alive)).isEmpty = true
       then Desktop.CombatState.player_defeat
       else if ((Desktop.checkCombatEnd svc).1.combatants.filter
          (fun c => c.type == "monster" && c.is_alive)).isEmpty = true
       then Desktop.CombatState.player_victory
       else svc.state) ∧
    (Desktop.checkCombatEnd svc).1.combatants = svc.combatants ∧
    (Desktop.checkCombatEnd svc).1.current_turn = svc.current_turn ∧
    (Desktop.checkCombatEnd svc).1.turn_order = svc.turn_order := by
  obtain ⟨hc, hct, hto, hs⟩ := checkCombatEnd_fields svc
  refine ⟨?_, hc, hct, hto⟩
  rw [hs, hc]

/-- C3: combat-end detection.  The engine's `check_combat_end` returns
`"defeat"` as soon as no player-side combatant is alive, `"victory"` when
players live and no monster does, and `none` (no state change) otherwise.
The desktop `attack` runs `_check_combat_end` before returning: the state of
the returned service already reflects victory/defeat computed from the
post-attack combatants, while `current_turn` and `turn_order` are untouched
(the scheduler has not advanced). -/
theorem claim_C3_combat_end_detection :
    (∀ eng : Backend.CombatEngine,
      ((eng.combatants.any (fun p => p.2.type == "player" && p.2.is_alive)) = false →
        eng.check_combat_end.2 = some "defeat") ∧
      ((eng.combatants.any (fun p => p.2.type == "player" && p.2.is_alive)) = true →
       (eng.combatants.any (fun p => p.2.type == "monster" && p.2.is_alive)) = false →
        eng.check_combat_end.2 = some "victory") ∧
      ((eng.combatants.any (fun p => p.2.type == "player" && p.2.is_alive)) = true →
       (eng.combatants.any (fun p => p.2.type == "monster" && p.2.is_alive)) = true →
        eng.check_combat_end.2 = none ∧ eng.check_combat_end.1 = eng)) ∧
    (∀ (svc : Desktop.CombatService) (aid tid : String) (w : Desktop.WeaponInfo)
       (d20 : ℤ) (rs : List ℤ) (svc2 : Desktop.CombatService) (res : Desktop.AttackResult),
      svc.state = Desktop.CombatState.in_progress →
      Desktop.CombatService.attack svc aid tid w d20 rs = .ok (svc2, res) →
      svc2.state =
        (if (svc2.combatants.filter (fun c => c.type == "character" && c.is_alive)).isEmpty = true
         then Desktop.CombatState.player_defeat
         else if (svc2.combatants.filter (fun c => c.type == "monster" && c.is_alive)).isEmpty = true
         then Desktop.CombatState.player_victory
         else Desktop.CombatState.in_progress) ∧
      svc2.current_turn = svc.current_turn ∧ svc2.turn_order = svc.turn_order) := by
  constructor
  · intro eng
    refine ⟨?_, ?_, ?_⟩
    · intro hp
      unfold Backend.CombatEngine.check_combat_end
      simp [hp]
    · intro hp hm
      unfold Backend.CombatEngine.check_combat_end
      simp [hp, hm]
    · intro hp hm
      unfold Backend.CombatEngine.check_combat_end
      simp [hp, hm]
  · intro svc aid tid w d20 rs svc2 res hstate hattack
    unfold Desktop.CombatService.attack at hattack
    cases hA : Desktop.getCombatantById svc aid with
    | none => rw [hA] at hattack; simp at hattack
    | some attacker =>
      cases hT : Desktop.getCombatantById svc tid with
      | none => rw [hA, hT] at hattack; simp at hattack
      | some target =>
        rw [hA, hT] at hattack
        simp only [] at hattack
        split_ifs at hattack with h1 h2 h3
        · rw [Except.ok.injEq, Prod.mk.injEq] at hattack
          obtain ⟨hsvc2, -⟩ := hattack
          rw [← hsvc2]
          refine ⟨?_, (checkCombatEnd_state _).2.2.1, (checkCombatEnd_state _).2.2.2⟩
          rw [(checkCombatEnd_state _).1]
          simp [hstate]
        · rw [Except.ok.injEq, Prod.mk.injEq] at hattack
          obtain ⟨hsvc2, -⟩ := hattack
          rw [← hsvc2]
          refine ⟨?_, (checkCombatEnd_state _).2.2.1, (checkCombatEnd_state _).2.2.2⟩
          rw [(checkCombatEnd_state _).1]
          simp [hstate]

/-- Witness for C3: a lone surviving player versus a dead monster yields
`"victory"` from the engine's end check, and a desktop attack that drops the
monster to 0 HP leaves the service in `player_victory` with the scheduler
cursor untouched. -/
theorem claim_C3_witness :
    (Backend.CombatEngine.check_combat_end
      { combatants := [("p", { id := "p", type := "player", current_hp := 3 }),
                       ("m", { id := "m", type := "monster", current_hp := 0 })] }).2 =
      some "victory" ∧
    ({ combatants := [
        { id := "p", name := "P", type := "character", current_hp := 5, max_hp := 5,
          armor_class := 16, is_alive := true },
        { id := "m", name := "M", type := "monster", current_hp := 0, max_hp := 2,
          armor_class := 2, is_alive := false }],
       state := Desktop.CombatState.player_victory } : Desktop.CombatService).state =
      Desktop.CombatState.player_victory ∧
    ({ combatants := [
        { id := "p", name := "P", type := "character", current_hp := 5, max_hp := 5,
          armor_class := 16, is_alive := true },
        { id := "m", name := "M", type := "monster", current_hp := 0, max_hp := 2,
          armor_class := 2, is_alive := false }],
       state := Desktop.CombatState.player_victory } : Desktop.CombatService).current_turn = 0 := by
  refine ⟨?_, ?_, ?_⟩
  · exact ((claim_C3_combat_end_detection.1 _).2.1 (by decide) (by decide))
  · have h := claim_C3_combat_end_detection.2
      { combatants := [
          { id := "p", name := "P", type := "character", current_hp := 5, max_hp := 5,
            armor_class := 16, is_alive := true },
          { id := "m", name := "M", type := "monster", current_hp := 2, max_hp := 2,
            armor_class := 2, is_alive := true }],
        state := Desktop.CombatState.in_progress }
      "p" "m" { attack_bonus := 3, damage_dice := "1d6+2", damage_type := "slashing",
                name := "Sword" } 15 [4]
      { combatants := [
          { id := "p", name := "P", type := "character", current_hp := 5, max_hp := 5,
            armor_class := 16, is_alive := true },
          { id := "m", name := "M", type := "monster", current_hp := 0, max_hp := 2,
            armor_class := 2, is_alive := false }],
        state := Desktop.CombatState.player_victory }
      { attacker_name := "P", target_name := "M", attack_roll := 18, target_ac := 2,
        hit := true, critical := false, fumble := false, damage := 2,
        damage_type := "slashing", attack_dice_roll := 15, attack_bonus := 3,
        damage_dice_notation := "1d6+2", damage_dice_roll := 4, damage_bonus := 2,
        weapon_name := "Sword" }
      rfl (by decide)
    exact h.1.trans (by decide)
  · have h := claim_C3_combat_end_detection.2
      { combatants := [
          { id := "p", name := "P", type := "character", current_hp := 5, max_hp := 5,
            armor_class := 16, is_alive := true },
          { id := "m", name := "M", type := "monster", current_hp := 2, max_hp := 2,
            armor_class := 2, is_alive := true }],
        state := Desktop.CombatState.in_progress }
      "p" "m" { attack_bonus := 3, damage_dice := "1d6+2", damage_type := "slashing",
                name := "Sword" } 15 [4]
      { combatants := [
          { id := "p", name := "P", type := "character", current_hp := 5, max_hp := 5,
            armor_class := 16, is_alive := true },
          { id := "m", name := "M", type := "monster", current_hp := 0, max_hp := 2,
            armor_class := 2, is_alive := false }],
        state := Desktop.CombatState.player_victory }
      { attacker_name := "P", target_name := "M", attack_roll := 18, target_ac := 2,
        hit := true, critical := false, fumble := false, damage := 2,
        damage_type := "slashing", attack_dice_roll := 15, attack_bonus := 3,
        damage_dice_notation := "1d6+2", damage_dice_roll := 4, damage_bonus := 2,
        weapon_name := "Sword" }
      rfl (by decide)
    exact h.2.1

/-- C9 counterexample: with turn order `["A", "B"]` and the cursor on "A",
the engine happily processes a movement action submitted for "B" — it
returns a successful result and mutates B's position, instead of a declined
`not_your_turn` result with no mutation. -/
theorem claim_C9_counterexample :
    Backend.currentActorId
      { combatants := [("A", { id := "A" }), ("B", { id := "B" })],
        turn_order := ["A", "B"], current_turn := 0 } = some "A" ∧
    ("B" : String) ≠ "A" ∧
    (Backend.CombatEngine.process_action
      { combatants := [("A", { id := "A" }), ("B", { id := "B" })],
        turn_order := ["A", "B"], current_turn := 0 }
      "B" { type := Backend.ActionType.movement, position := Backend.CombatPosition.melee }
      none 0 []).toOption.map
        (fun p => (p.2.success, (Backend.dictGet p.1.combatants "B").map (fun c => c.position))) =
      some (true, some Backend.CombatPosition.melee) := by decide

/-- C9 (amended): the engine's `process_action` performs no turn-order
validation at all — its outcome (combatant table, turn order and result
dict) is independent of `current_turn`; out-of-order submissions are
rejected only by the web router, which raises HTTP 400 ("Not your turn" /
"Not this monster's turn") before any engine call. -/
theorem claim_C9_turn_validation :
    (∀ (eng : Backend.CombatEngine) (n : ℕ) (cid : String) (act : Backend.ActionDict)
        (tid : Option String) (d20 : ℤ) (rs : List ℤ),
      (Backend.CombatEngine.process_action { eng with current_turn := n } cid act tid d20 rs).map
          (fun p => (p.1.combatants, p.1.turn_order, p.2)) =
        (Backend.CombatEngine.process_action eng cid act tid d20 rs).map
          (fun p => (p.1.combatants, p.1.turn_order, p.2))) ∧
    (∀ (cur : Router.CombatParticipant) (cid aid : String),
      cur.character_id = some cid → cid ≠ aid →
      Router.turnGate cur aid = some (400, "Not your turn")) ∧
    (∀ (cur : Router.CombatParticipant) (mid aid : String),
      cur.character_id = none → cur.monster_id = some mid → mid ≠ aid →
      Router.turnGate cur aid = some (400, "Not this monster's turn")) := by
  refine ⟨?_, ?_, ?_⟩
  · intro eng n cid act tid d20 rs
    unfold Backend.CombatEngine.process_action
    rw [except_map_map, except_map_map]
  · intro cur cid aid h1 h2
    unfold Router.turnGate
    rw [h1]
    simp [h2]
  · intro cur mid aid h0 h1 h2
    unfold Router.turnGate
    rw [h0, h1]
    simp [h2]

/-- Witness for C9 (amended) at concrete inputs. -/
theorem claim_C9_witness :
    (Backend.CombatEngine.process_action
        { combatants := [("A", { id := "A" })], turn_order := ["A"], current_turn := 5 }
        "A" {} none 0 []).map (fun p => (p.1.combatants, p.1.turn_order, p.2)) =
      (Backend.CombatEngine.process_action
        { combatants := [("A", { id := "A" })], turn_order := ["A"], current_turn := 0 }
        "A" {} none 0 []).map (fun p => (p.1.combatants, p.1.turn_order, p.2)) ∧
    Router.turnGate { character_id := some "char-1" } "char-2" = some (400, "Not your turn") ∧
    Router.turnGate { monster_id := some "m-1" } "char-1" =
      some (400, "Not this monster's turn") :=
  ⟨claim_C9_turn_validation.1
      { combatants := [("A", { id := "A" })], turn_order := ["A"], current_turn := 0 }
      5 "A" {} none 0 [],
   claim_C9_turn_validation.2.1 { character_id := some "char-1" } "char-1" "char-2"
      rfl (by decide),
   claim_C9_turn_validation.2.2 { monster_id := some "m-1" } "m-1" "char-1"
      rfl rfl (by decide)⟩

/-- C8: the web router's `start_combat` tie-break is buggy — its sort key
reads `monsters[0].dexterity` for every monster participant, so two monsters
with equal initiative totals keep insertion order even when the second has
the higher dexterity modifier.  Here the character has dexterity 14, monster
`m0` (the first) has dexterity 8 and monster `m1` has dexterity 18: both
monsters tie at initiative 10, the spec orders `m1` before `m0`
(modifier +4 > -1), yet the router leaves `m0` first. -/
theorem claim_C8_router_tiebreak :
    Router.sortParticipants 14 8
      [{ character_id := some "c", initiative := 12 },
       { monster_id := some "m0", initiative := 10 },
       { monster_id := some "m1", initiative := 10 }] =
      [{ character_id := some "c", initiative := 12 },
       { monster_id := some "m0", initiative := 10 },
       { monster_id := some "m1", initiative := 10 }] ∧
    abilityModifier 8 < abilityModifier 18 := by decide

theorem dictGet_keyed_map (m : List (String × Backend.Combatant)) (k : String)
    (F : String → Backend.Combatant → Backend.Combatant) :
    Backend.dictGet (m.map (fun p => (p.1, F p.1 p.2))) k =
      (Backend.dictGet m k).map (F k) := by
  induction m with
  | nil => rfl
  | cons p t ih =>
    by_cases h : (p.1 == k) = true
    · have hk : p.1 = k := by simpa [beq_iff_eq] using h
      subst hk
      simp [Backend.dictGet, List.find?]
    · simp only [Backend.dictGet, List.map_cons, List.find?, h] at ih ⊢
      exact ih

theorem forall2_map_pair {P : (String × Backend.Combatant) → (String × Backend.Combatant) → Prop}
    (F : String → Backend.Combatant → Backend.Combatant)
    (h : ∀ k v, P (k, v) (k, F k v)) :
    ∀ m : List (String × Backend.Combatant),
      List.Forall₂ P m (m.map (fun p => (p.1, F p.1 p.2))) := by
  intro m
  induction m with
  | nil => exact List.Forall₂.nil
  | cons p t ih =>
    cases p with
    | mk k v => exact List.Forall₂.cons (h k v) ih

theorem markActionUsed_core (c : Backend.Combatant) (ty : Backend.ActionType) :
    Backend.sameCoreFields c (Backend.markActionUsed c ty) := by
  cases ty <;> exact ⟨rfl, rfl, rfl, rfl, rfl⟩

theorem defeatFix_core (tord : List String) (c : Backend.Combatant) :
    Backend.sameCoreFields c (Backend.defeatFix tord c) ∧
    Backend.sameFlags c (Backend.defeatFix tord c) := by
  unfold Backend.defeatFix
  split_ifs <;> exact ⟨⟨rfl, rfl, rfl, rfl, rfl⟩, rfl, rfl, rfl⟩

theorem defeatFix_flags (tord : List String) (c : Backend.Combatant) :
    (Backend.defeatFix tord c).has_taken_action = c.has_taken_action ∧
    (Backend.defeatFix tord c).has_taken_bonus = c.has_taken_bonus ∧
    (Backend.defeatFix tord c).has_taken_reaction = c.has_taken_reaction := by
  unfold Backend.defeatFix
  split_ifs <;> exact ⟨rfl, rfl, rfl⟩

theorem sameCoreFields_trans {a b c : Backend.Combatant}
    (h1 : Backend.sameCoreFields a b) (h2 : Backend.sameCoreFields b c) :
    Backend.sameCoreFields a c :=
  ⟨h2.1.trans h1.1, h2.2.1.trans h1.2.1, h2.2.2.1.trans h1.2.2.1,
   h2.2.2.2.1.trans h1.2.2.2.1, h2.2.2.2.2.trans h1.2.2.2.2⟩

theorem dictModify_of_forall_ne (m : List (String × Backend.Combatant)) (v : String)
    (f : Backend.Combatant → Backend.Combatant) (h : ∀ p ∈ m, p.1 ≠ v) :
    Backend.dictModify m v f = m := by
  induction m with
  | nil => rfl
  | cons p t ih =>
    have hp : (p.1 == v) = false := by
      simp [beq_iff_eq]
      exact h p (by simp)
    simp only [Backend.dictModify, List.map_cons, hp, Bool.false_eq_true, if_false]
    rw [show List.map (fun p => (p.1, if p.1 == v then f p.2 else p.2)) t =
        Backend.dictModify t v f from rfl,
      ih (fun q hq => h q (by simp [hq]))]

theorem dictModify_self_id (m : List (String × Backend.Combatant)) (v : String)
    (t : Backend.Combatant) (hfind : Backend.dictGet m v = some t)
    (hnodup : (m.map Prod.fst).Nodup) :
    Backend.dictModify m v (fun _ => t) = m := by
  induction m with
  | nil => rfl
  | cons p tl ih =>
    by_cases h : (p.1 == v) = true
    · have hk : p.1 = v := by simpa [beq_iff_eq] using h
      have hpt : p.2 = t := by
        unfold Backend.dictGet at hfind
        simp [List.find?, h] at hfind
        exact hfind
      have hrest : ∀ q ∈ tl, q.1 ≠ v := by
        intro q hq hqv
        have : p.1 ∈ tl.map Prod.fst := by
          rw [hk, ← hqv]
          exact List.mem_map_of_mem Prod.fst hq
        exact (List.nodup_cons.mp (by simpa using hnodup)).1 this
      have htail : List.map (fun q => (q.1, if q.1 == v then t else q.2)) tl = tl := by
        rw [show List.map (fun q => (q.1, if q.1 == v then t else q.2)) tl =
            Backend.dictModify tl v (fun _ => t) from rfl,
          dictModify_of_forall_ne tl v _ hrest]
      simp only [Backend.dictModify, List.map_cons, h, if_true]
      rw [htail, ← hpt]
    · have hrec : Backend.dictGet tl v = some t := by
        unfold Backend.dictGet at hfind
        rw [List.find?_cons_of_neg _ (by simp [h])] at hfind
        exact hfind
      simp only [Backend.dictModify, List.map_cons, h, Bool.false_eq_true, if_false]
      rw [show List.map (fun p => (p.1, if p.1 == v then t else p.2)) tl =
          Backend.dictModify tl v (fun _ => t) from rfl,
        ih hrec (List.Nodup.of_cons (by simpa using hnodup))]

theorem checkDefeats_mark_map (m : List (String × Backend.Combatant)) (cid : String)
    (ty : Backend.ActionType) (tord : List String) :
    Backend.checkDefeatsMap
        (Backend.dictModify m cid (fun v => Backend.markActionUsed v ty)) tord =
      m.map (fun p => (p.1, Backend.defeatFix tord
        (if p.1 == cid then Backend.markActionUsed p.2 ty else p.2))) := by
  unfold Backend.checkDefeatsMap Backend.dictModify
  rw [List.map_map]
  rfl

theorem declineTail (m : List (String × Backend.Combatant)) (tord : List String)
    (cid : String) (c : Backend.Combatant) (ty : Backend.ActionType)
    (hget : Backend.dictGet m cid = some c) :
    List.Forall₂ (fun p q => p.1 = q.1 ∧ Backend.sameCoreFields p.2 q.2 ∧
        (p.1 ≠ cid → Backend.sameFlags p.2 q.2)) m
      (Backend.checkDefeatsMap
        (Backend.dictModify m cid (fun v => Backend.markActionUsed v ty)) tord) ∧
    Backend.dictGet (Backend.checkDefeatsMap
        (Backend.dictModify m cid (fun v => Backend.markActionUsed v ty)) tord) cid =
      some (Backend.defeatFix tord (Backend.markActionUsed c ty)) := by
  rw [checkDefeats_mark_map]
  constructor
  · refine forall2_map_pair
      (fun k v => Backend.defeatFix tord (if k == cid then Backend.markActionUsed v ty else v))
      ?_ m
    intro k v
    refine ⟨rfl, ?_, ?_⟩
    · show Backend.sameCoreFields v
        (Backend.defeatFix tord (if k == cid then Backend.markActionUsed v ty else v))
      by_cases hk : (k == cid) = true
      · rw [if_pos hk]
        exact sameCoreFields_trans (markActionUsed_core v ty)
          (defeatFix_core tord (Backend.markActionUsed v ty)).1
      · rw [if_neg hk]
        exact (defeatFix_core tord v).1
    · intro hne
      show Backend.sameFlags v
        (Backend.defeatFix tord (if k == cid then Backend.markActionUsed v ty else v))
      rw [if_neg (show ¬((k == cid) = true) by simpa using hne)]
      exact (defeatFix_core tord v).2
  · have hdg := dictGet_keyed_map m cid
      (fun k v => Backend.defeatFix tord (if k == cid then Backend.markActionUsed v ty else v))
    simp only [] at hdg
    rw [hdg, hget]
    simp

/-- C2 counterexample: a decline is not side-effect free.  In the backend
engine, an attack declined because the target is already dead (`"Invalid
target"`) still flips the actor's `has_taken_action` flag to `true`
(`_mark_action_used` runs unconditionally after the dispatch), so the
caller cannot retry in the same turn; and the desktop service raises
`ValueError` (an exception, not a declined result) when the target is
already defeated. -/
theorem claim_C2_counterexample :
    (Backend.dictGet [("A", { id := "A" }), ("B", { id := "B", current_hp := 0 })] "A").map
        (fun c => c.has_taken_action) = some false ∧
    (Backend.CombatEngine.process_action
        { combatants := [("A", { id := "A" }), ("B", { id := "B", current_hp := 0 })],
          turn_order := ["A", "B"], current_turn := 0 }
        "A" { attack := true } (some "B") 10 []).toOption.map
        (fun p => (p.2.success, p.2.description,
          (Backend.dictGet p.1.combatants "A").map (fun c => c.has_taken_action))) =
      some (false, "Invalid target", some true) ∧
    Desktop.CombatService.attack
      { combatants := [
          { id := "p", name := "P", type := "character", current_hp := 5, max_hp := 5,
            armor_class := 10, is_alive := true },
          { id := "m", name := "M", type := "monster", current_hp := 0, max_hp := 5,
            armor_class := 10, is_alive := false }],
        state := Desktop.CombatState.in_progress }
      "p" "m" {} 10 [] = .error "Cannot target M - already defeated" := by decide

/-- C2 (amended): in the backend engine no decline raises an exception, and
each carries a reason; but declines are not all state-free.  An unknown
combatant id or an action-economy violation returns an error result with
the engine completely untouched.  An invalid attack target (unresolvable
id or `None`), a dead attack target, and an unknown special-ability name
each return a `success := false` result with a reason description — yet
the engine still charges the actor's economy slot for the declined action:
every combatant keeps its HP, temporary HP, conditions, position and
remaining movement, every combatant other than the actor also keeps its
three economy flags, and the actor ends as `defeatFix` of
`markActionUsed` of its old self.  (The desktop service instead raises
`ValueError` on an invalid or dead attacker/target — see the
counterexample.) -/
theorem claim_C2_decline_effects :
    (∀ (eng : Backend.CombatEngine) (cid : String) (act : Backend.ActionDict)
        (tid : Option String) (d20 : ℤ) (rs : List ℤ),
      Backend.dictGet eng.combatants cid = none →
      Backend.CombatEngine.process_action eng cid act tid d20 rs =
        .ok (eng, { error := some "Invalid combatant" })) ∧
    (∀ (eng : Backend.CombatEngine) (cid : String) (c : Backend.Combatant)
        (act : Backend.ActionDict) (tid : Option String) (d20 : ℤ) (rs : List ℤ),
      Backend.dictGet eng.combatants cid = some c →
      Backend.canTakeAction c act.type = false →
      Backend.CombatEngine.process_action eng cid act tid d20 rs =
        .ok (eng, { error := some "Cannot take action - already used" })) ∧
    (∀ (eng : Backend.CombatEngine) (cid : String) (c : Backend.Combatant)
        (act : Backend.ActionDict) (tid : Option String) (d20 : ℤ) (rs : List ℤ),
      Backend.dictGet eng.combatants cid = some c →
      Backend.canTakeAction c act.type = true →
      act.attack = true →
      tid.bind (Backend.dictGet eng.combatants) = none →
      ∃ eng2, Backend.CombatEngine.process_action eng cid act tid d20 rs =
          .ok (eng2, { success := false, description := "Invalid target" }) ∧
        eng2.turn_order = eng.turn_order ∧ eng2.current_turn = eng.current_turn ∧
        List.Forall₂ (fun p q => p.1 = q.1 ∧ Backend.sameCoreFields p.2 q.2 ∧
          (p.1 ≠ cid → Backend.sameFlags p.2 q.2)) eng.combatants eng2.combatants ∧
        Backend.dictGet eng2.combatants cid =
          some (Backend.defeatFix eng.turn_order (Backend.markActionUsed c act.type))) ∧
    (∀ (eng : Backend.CombatEngine) (cid tidv : String) (c t : Backend.Combatant)
        (act : Backend.ActionDict) (d20 : ℤ) (rs : List ℤ),
      Backend.dictGet eng.combatants cid = some c →
      Backend.canTakeAction c act.type = true →
      act.attack = true →
      Backend.dictGet eng.combatants tidv = some t →
      t.is_alive = false →
      (eng.combatants.map Prod.fst).Nodup →
      ∃ eng2, Backend.CombatEngine.process_action eng cid act (some tidv) d20 rs =
          .ok (eng2, { success := false, description := "Invalid target" }) ∧
        eng2.turn_order = eng.turn_order ∧ eng2.current_turn = eng.current_turn ∧
        List.Forall₂ (fun p q => p.1 = q.1 ∧ Backend.sameCoreFields p.2 q.2 ∧
          (p.1 ≠ cid → Backend.sameFlags p.2 q.2)) eng.combatants eng2.combatants ∧
        Backend.dictGet eng2.combatants cid =
          some (Backend.defeatFix eng.turn_order (Backend.markActionUsed c act.type))) ∧
    (∀ (eng : Backend.CombatEngine) (cid : String) (c : Backend.Combatant)
        (act : Backend.ActionDict) (tid : Option String) (d20 : ℤ) (rs : List ℤ),
      Backend.dictGet eng.combatants cid = some c →
      Backend.canTakeAction c act.type = true →
      act.attack = false →
      pyTruthyStrOpt act.heal = false →
      act.special = true →
      containsStr "Second Wind" act.name = false →
      containsStr "Action Surge" act.name = false →
      containsStr "Cunning Action" act.name = false →
      containsStr "Sneak Attack" act.name = false →
      (eng.combatants.map Prod.fst).Nodup →
      ∃ eng2, Backend.CombatEngine.process_action eng cid act tid d20 rs =
          .ok (eng2, { success := false, description := "Unknown ability: " ++ act.name }) ∧
        eng2.turn_order = eng.turn_order ∧ eng2.current_turn = eng.current_turn ∧
        List.Forall₂ (fun p q => p.1 = q.1 ∧ Backend.sameCoreFields p.2 q.2 ∧
          (p.1 ≠ cid → Backend.sameFlags p.2 q.2)) eng.combatants eng2.combatants ∧
        Backend.dictGet eng2.combatants cid =
          some (Backend.defeatFix eng.turn_order (Backend.markActionUsed c act.type))) := by
  refine ⟨?_, ?_, ?_, ?_, ?_⟩
  · intro eng cid act tid d20 rs hnone
    unfold Backend.CombatEngine.process_action
    simp only [Backend.processActionCore, hnone]
    rfl
  · intro eng cid c act tid d20 rs hget hcan
    have hnot : (!Backend.canTakeAction c act.type) = true := by rw [hcan]; rfl
    unfold Backend.CombatEngine.process_action
    simp only [Backend.processActionCore, hget, hnot, if_true]
    rfl
  · intro eng cid c act tid d20 rs hget hcan hatk htgt
    have hnot : (!Backend.canTakeAction c act.type) = false := by rw [hcan]; rfl
    have htail := declineTail eng.combatants eng.turn_order cid c act.type hget
    refine ⟨{ eng with combatants := Backend.checkDefeatsMap (Backend.dictModify eng.combatants cid (fun v => Backend.markActionUsed v act.type)) eng.turn_order }, ?_, rfl, rfl, htail.1, htail.2⟩
    unfold Backend.CombatEngine.process_action
    cases tid with
    | none =>
      simp [Backend.processActionCore, Backend.processAttack, Except.map, hget, hnot, hatk]
    | some tidv =>
      rw [Option.some_bind] at htgt
      simp [Backend.processActionCore, Backend.processAttack, Except.map, hget, hnot, hatk,
        htgt]
  · intro eng cid tidv c t act d20 rs hget hcan hatk ht halive hnodup
    have hnot : (!Backend.canTakeAction c act.type) = false := by rw [hcan]; rfl
    have hnal : (!t.is_alive) = true := by rw [halive]; rfl
    have hmod : Backend.dictModify eng.combatants tidv (fun _ => t) = eng.combatants :=
      dictModify_self_id eng.combatants tidv t ht hnodup
    have htail := declineTail eng.combatants eng.turn_order cid c act.type hget
    refine ⟨{ eng with combatants := Backend.checkDefeatsMap (Backend.dictModify eng.combatants cid (fun v => Backend.markActionUsed v act.type)) eng.turn_order }, ?_, rfl, rfl, htail.1, htail.2⟩
    unfold Backend.CombatEngine.process_action
    simp [Backend.processActionCore, Backend.processAttack, Except.map, hget, hnot, hatk,
      ht, hnal, hmod]
  · intro eng cid c act tid d20 rs hget hcan hatk hheal hspec hsw has hca hsa hnodup
    have hnot : (!Backend.canTakeAction c act.type) = false := by rw [hcan]; rfl
    have hmod : Backend.dictModify eng.combatants cid (fun _ => c) = eng.combatants :=
      dictModify_self_id eng.combatants cid c hget hnodup
    have htail := declineTail eng.combatants eng.turn_order cid c act.type hget
    refine ⟨{ eng with combatants := Backend.checkDefeatsMap (Backend.dictModify eng.combatants cid (fun v => Backend.markActionUsed v act.type)) eng.turn_order }, ?_, rfl, rfl, htail.1, htail.2⟩
    unfold Backend.CombatEngine.process_action
    cases htv : tid.bind (Backend.dictGet eng.combatants) with
    | none =>
      simp [Backend.processActionCore, Backend.processSpecialAbility,
        Backend.processSpecialFall, Except.map, hget, hnot, hatk, hheal, hspec,
        hsw, has, hca, hsa, htv, hmod]
    | some tc =>
      simp [Backend.processActionCore, Backend.processSpecialAbility,
        Backend.processSpecialFall, Except.map, hget, hnot, hatk, hheal, hspec,
        hsw, has, hca, hsa, htv, hmod]

/-- Witness for C2 (amended) at concrete inputs, one per decline kind:
unknown combatant, economy violation, unresolvable attack target, dead
attack target, unknown special ability. -/
theorem claim_C2_witness :
    (Backend.CombatEngine.process_action { combatants := [], turn_order := [] } "X" {}
        none 0 [] =
      .ok ({ combatants := [], turn_order := [] }, { error := some "Invalid combatant" })) ∧
    (Backend.CombatEngine.process_action
        { combatants := [("A", { id := "A", has_taken_action := true })], turn_order := ["A"] }
        "A" {} none 0 [] =
      .ok ({ combatants := [("A", { id := "A", has_taken_action := true })],
             turn_order := ["A"] },
        { error := some "Cannot take action - already used" })) ∧
    ((Backend.CombatEngine.process_action
        { combatants := [("A", { id := "A" })], turn_order := ["A"] }
        "A" { attack := true } none 0 []).toOption.map (fun p => p.2) =
      some { success := false, description := "Invalid target" }) ∧
    ((Backend.CombatEngine.process_action
        { combatants := [("A", { id := "A" }), ("B", { id := "B", current_hp := 0 })],
          turn_order := ["A", "B"] }
        "A" { attack := true } (some "B") 10 []).toOption.map (fun p => p.2) =
      some { success := false, description := "Invalid target" }) ∧
    ((Backend.CombatEngine.process_action
        { combatants := [("A", { id := "A" })], turn_order := ["A"] }
        "A" { special := true, name := "Fireball" } none 0 []).toOption.map (fun p => p.2) =
      some { success := false, description := "Unknown ability: Fireball" }) := by
  refine ⟨?_, ?_, ?_, ?_, ?_⟩
  · exact claim_C2_decline_effects.1 { combatants := [], turn_order := [] } "X" {} none 0 []
      rfl
  · exact claim_C2_decline_effects.2.1
      { combatants := [("A", { id := "A", has_taken_action := true })], turn_order := ["A"] }
      "A" { id := "A", has_taken_action := true } {} none 0 [] (by decide) (by decide)
  · obtain ⟨eng2, heq, -⟩ := claim_C2_decline_effects.2.2.1
      { combatants := [("A", { id := "A" })], turn_order := ["A"] } "A"
      { id := "A" } { attack := true } none 0 [] (by decide) (by decide) rfl rfl
    rw [heq]; rfl
  · obtain ⟨eng2, heq, -⟩ := claim_C2_decline_effects.2.2.2.1
      { combatants := [("A", { id := "A" }), ("B", { id := "B", current_hp := 0 })],
        turn_order := ["A", "B"] } "A" "B"
      { id := "A" } { id := "B", current_hp := 0 } { attack := true } 10 []
      (by decide) (by decide) rfl (by decide) (by decide) (by decide)
    rw [heq]; rfl
  · obtain ⟨eng2, heq, -⟩ := claim_C2_decline_effects.2.2.2.2
      { combatants := [("A", { id := "A" })], turn_order := ["A"] } "A"
      { id := "A" } { special := true, name := "Fireball" } none 0 []
      (by decide) (by decide) rfl rfl rfl (by decide) (by decide) (by decide) (by decide)
      (by decide)
    rw [heq]; rfl

/-- C1: attack resolution.  In both the backend engine and the desktop
service, with a live target in range and an `NdM`-form damage notation: a
natural 20 always hits and is a critical regardless of the target's armor
class, and its damage rolls the notation with twice as many dice of the
same size (the scanner finds exactly the doubled group) while the flat
modifier is added exactly once; a natural 1 always misses, the result
carries damage 0 and the target is untouched; any other roll hits exactly
when roll + attack bonus ≥ armor class, and a miss carries damage 0 with
the target untouched. -/
theorem claim_C1_attack_resolution :
    (∀ (attacker t : Backend.Combatant) (action : Backend.ActionDict)
        (rs : List ℤ) (p0 p1 : List Char),
      t.is_alive = true →
      (action.range = "melee" → attacker.position = Backend.CombatPosition.melee) →
      action.damage.toList = p0 ++ 'd' :: p1 →
      p0 ≠ [] → p1 ≠ [] →
      (∀ c ∈ p0, c.isDigit = true) → (∀ c ∈ p1, c.isDigit = true) →
      valDigits p1 ≠ 0 →
      ((∃ res t2, Backend.processAttack attacker (some t) action 20 rs = .ok (res, some t2) ∧
          res.success = true ∧ res.is_crit = some true ∧
          res.damage = some (DiceRoller.roll ⟨natToChars (valDigits p0 * 2) ++ 'd' :: p1⟩
              false false rs + action.damage_bonus) ∧
          t2 = (t.take_damage (DiceRoller.roll ⟨natToChars (valDigits p0 * 2) ++ 'd' :: p1⟩
              false false rs + action.damage_bonus)).1) ∧
        scanDice (natToChars (valDigits p0 * 2) ++ 'd' :: p1) =
          [(valDigits p0 * 2, valDigits p1)] ∧
        scanDice (p0 ++ 'd' :: p1) = [(valDigits p0, valDigits p1)]) ∧
      (∃ res, Backend.processAttack attacker (some t) action 1 rs = .ok (res, some t) ∧
          res.success = false ∧ res.damageValue = 0) ∧
      (∀ d20 : ℤ, d20 ≠ 20 → d20 ≠ 1 →
        (t.ac ≤ d20 + action.bonus →
          ∃ res t2, Backend.processAttack attacker (some t) action d20 rs = .ok (res, some t2) ∧
            res.success = true) ∧
        (¬ t.ac ≤ d20 + action.bonus →
          ∃ res, Backend.processAttack attacker (some t) action d20 rs = .ok (res, some t) ∧
            res.success = false ∧ res.damageValue = 0))) ∧
    (∀ (svc : Desktop.CombatService) (aid tid : String) (w : Desktop.WeaponInfo)
        (rs : List ℤ) (att tgt : Desktop.Combatant) (p0 p1 ds : List Char) (sc : Char),
      Desktop.getCombatantById svc aid = some att →
      Desktop.getCombatantById svc tid = some tgt →
      att.is_alive = true → tgt.is_alive = true →
      Desktop.reMatchDiceBonus w.damage_dice.toList = some ((p0, p1), some (sc, ds)) →
      p1 ≠ [] → (∀ c ∈ p1, c.isDigit = true) →
      ((∃ svc2 res, Desktop.CombatService.attack svc aid tid w 20 rs = .ok (svc2, res) ∧
          res.hit = true ∧ res.critical = true ∧
          res.damage_dice_roll =
            DiceRoller.roll ⟨natToChars (valDigits p0 * 2) ++ 'd' :: p1⟩ false false rs ∧
          res.damage_bonus = signVal sc * (valDigits ds : ℤ) ∧
          res.damage_dice_notation = ⟨(natToChars (valDigits p0 * 2) ++ 'd' :: p1) ++ sc :: ds⟩ ∧
          svc2.combatants = Desktop.updateCombatant svc.combatants tid
            ((tgt.take_damage (res.damage_dice_roll + res.damage_bonus)).1)) ∧
        scanDice (natToChars (valDigits p0 * 2) ++ 'd' :: p1) =
          [(valDigits p0 * 2, valDigits p1)]) ∧
      (∃ svc2 res, Desktop.CombatService.attack svc aid tid w 1 rs = .ok (svc2, res) ∧
          res.hit = false ∧ res.fumble = true ∧ res.damage = 0 ∧
          svc2.combatants = svc.combatants) ∧
      (∀ d20 : ℤ, d20 ≠ 20 → d20 ≠ 1 →
        ∃ svc2 res, Desktop.CombatService.attack svc aid tid w d20 rs = .ok (svc2, res) ∧
          (res.hit = true ↔ tgt.armor_class ≤ d20 + w.attack_bonus) ∧
          (res.hit = false → res.damage = 0 ∧ svc2.combatants = svc.combatants))) := by
  constructor
  · intro attacker t action rs p0 p1 halive hrange hdam h0 h1 hdg0 hdg1 hmval
    have hb1 : (!t.is_alive) = false := by rw [halive]; rfl
    have hb2 : ((action.range == "melee") &&
        !(attacker.position == Backend.CombatPosition.melee)) = false := by
      by_cases hr : action.range = "melee"
      · simp [hr, hrange hr]
      · simp [beq_iff_eq, hr]
    have hcd := critDouble_of_form action.damage p0 p1 hdam h0 h1 hdg0 hdg1
    have hsd1 : scanDice (natToChars (valDigits p0 * 2) ++ 'd' :: p1) =
        [(valDigits p0 * 2, valDigits p1)] := by
      rw [scanDice_form _ _ (natToChars_ne_nil _) h1 (natToChars_isDigit _) hdg1,
        valDigits_natToChars]
    have hsd0 : scanDice (p0 ++ 'd' :: p1) = [(valDigits p0, valDigits p1)] :=
      scanDice_form _ _ h0 h1 hdg0 hdg1
    refine ⟨⟨?_, hsd1, hsd0⟩, ?_, ?_⟩
    · simp only [Backend.processAttack, hb1, hb2, hcd]
      norm_num
      exact ⟨_, _, ⟨rfl, rfl⟩, rfl, rfl, rfl, rfl⟩
    · simp only [Backend.processAttack, hb1, hb2]
      norm_num
      rfl
    · intro d20 hne20 hne1
      have hb20 : (d20 == 20) = false := by simp [beq_iff_eq, hne20]
      have hbo1 : (d20 == 1) = false := by simp [beq_iff_eq, hne1]
      constructor
      · intro hhit
        have hdec : decide (t.ac ≤ d20 + action.bonus) = true := decide_eq_true hhit
        simp only [Backend.processAttack, hb1, hb2, hb20, hbo1, hdec]
        norm_num
      · intro hmiss
        have hdec : decide (t.ac ≤ d20 + action.bonus) = false :=
          decide_eq_false hmiss
        simp only [Backend.processAttack, hb1, hb2, hb20, hbo1, hdec]
        norm_num
        rfl
  · intro svc aid tid w rs att tgt p0 p1 ds sc hA hT haliveA haliveT hmatch h1 hdg1
    have hbA : (!att.is_alive) = false := by rw [haliveA]; rfl
    have hbT : (!tgt.is_alive) = false := by rw [haliveT]; rfl
    have hsd1 : scanDice (natToChars (valDigits p0 * 2) ++ 'd' :: p1) =
        [(valDigits p0 * 2, valDigits p1)] := by
      rw [scanDice_form _ _ (natToChars_ne_nil _) h1 (natToChars_isDigit _) hdg1,
        valDigits_natToChars]
    refine ⟨⟨?_, hsd1⟩, ?_, ?_⟩
    · simp only [Desktop.CombatService.attack, hA, hT, hbA, hbT, Desktop.attackDamage, hmatch]
      norm_num
      refine ⟨_, _, ⟨rfl, rfl⟩, rfl, rfl, rfl, rfl, rfl, (checkCombatEnd_fields _).1⟩
    · simp only [Desktop.CombatService.attack, hA, hT, hbA, hbT]
      norm_num
      exact ⟨_, _, ⟨rfl, rfl⟩, rfl, rfl, rfl, (checkCombatEnd_fields _).1⟩
    · intro d20 hne20 hne1
      have hb20 : (d20 == 20) = false := by simp [beq_iff_eq, hne20]
      have hbo1 : (d20 == 1) = false := by simp [beq_iff_eq, hne1]
      by_cases hhit : tgt.armor_class ≤ d20 + w.attack_bonus
      · have hdec : decide (tgt.armor_class ≤ d20 + w.attack_bonus) = true :=
          decide_eq_true hhit
        simp only [Desktop.CombatService.attack, hA, hT, hbA, hbT, hb20, hbo1, hdec]
        norm_num
        refine ⟨_, _, ⟨rfl, rfl⟩, by simp [hhit], ?_⟩
        intro hcon
        simp at hcon
      · have hdec : decide (tgt.armor_class ≤ d20 + w.attack_bonus) = false :=
          decide_eq_false hhit
        simp only [Desktop.CombatService.attack, hA, hT, hbA, hbT, hb20, hbo1, hdec]
        norm_num
        refine ⟨_, _, ⟨rfl, rfl⟩, by simp [hhit], ?_⟩
        intro _
        exact ⟨rfl, (checkCombatEnd_fields _).1⟩

/-- Witness for C1 at concrete inputs: a melee attacker with a `1d8+3`
attack against AC 12, and a desktop service attacking with a `1d6+2`
sword. -/
theorem claim_C1_witness :
    (∃ res t2, Backend.processAttack { id := "a", position := .melee }
        (some { id := "b", current_hp := 30, max_hp := 30, ac := 12 })
        { attack := true, damage := "1d8", damage_bonus := 3, bonus := 2 } 20 [5, 4] =
        .ok (res, some t2) ∧ res.success = true ∧ res.is_crit = some true) ∧
    (∃ res, Backend.processAttack { id := "a", position := .melee }
        (some { id := "b", current_hp := 30, max_hp := 30, ac := 12 })
        { attack := true, damage := "1d8", damage_bonus := 3, bonus := 2 } 1 [5, 4] =
        .ok (res, some { id := "b", current_hp := 30, max_hp := 30, ac := 12 }) ∧
        res.success = false ∧ res.damageValue = 0) ∧
    (∃ res t2, Backend.processAttack { id := "a", position := .melee }
        (some { id := "b", current_hp := 30, max_hp := 30, ac := 12 })
        { attack := true, damage := "1d8", damage_bonus := 3, bonus := 2 } 10 [5, 4] =
        .ok (res, some t2) ∧ res.success = true) ∧
    (∃ svc2 res, Desktop.CombatService.attack
        { combatants := [
            { id := "p", type := "character", current_hp := 10, max_hp := 10,
              armor_class := 15, is_alive := true },
            { id := "m", type := "monster", current_hp := 9, max_hp := 9,
              armor_class := 13, is_alive := true }],
          state := Desktop.CombatState.in_progress }
        "p" "m" { attack_bonus := 3, damage_dice := "1d6+2" } 20 [4] = .ok (svc2, res) ∧
        res.hit = true ∧ res.critical = true ∧ res.damage_dice_notation = "2d6+2") ∧
    (∃ svc2 res, Desktop.CombatService.attack
        { combatants := [
            { id := "p", type := "character", current_hp := 10, max_hp := 10,
              armor_class := 15, is_alive := true },
            { id := "m", type := "monster", current_hp := 9, max_hp := 9,
              armor_class := 13, is_alive := true }],
          state := Desktop.CombatState.in_progress }
        "p" "m" { attack_bonus := 3, damage_dice := "1d6+2" } 1 [4] = .ok (svc2, res) ∧
        res.hit = false ∧ res.damage = 0) := by
  have he := claim_C1_attack_resolution.1 { id := "a", position := .melee }
    { id := "b", current_hp := 30, max_hp := 30, ac := 12 }
    { attack := true, damage := "1d8", damage_bonus := 3, bonus := 2 } [5, 4] ['1'] ['8']
    (by decide) (fun _ => rfl) (by decide) (by decide) (by decide)
    (by decide) (by decide) (by decide)
  have hd := claim_C1_attack_resolution.2
    { combatants := [
        { id := "p", type := "character", current_hp := 10, max_hp := 10,
          armor_class := 15, is_alive := true },
        { id := "m", type := "monster", current_hp := 9, max_hp := 9,
          armor_class := 13, is_alive := true }],
      state := Desktop.CombatState.in_progress }
    "p" "m" { attack_bonus := 3, damage_dice := "1d6+2" } [4]
    { id := "p", type := "character", current_hp := 10, max_hp := 10,
      armor_class := 15, is_alive := true }
    { id := "m", type := "monster", current_hp := 9, max_hp := 9,
      armor_class := 13, is_alive := true }
    ['1'] ['6'] ['2'] '+'
    (by decide) (by decide) (by decide) (by decide) (by decide) (by decide) (by decide)
  refine ⟨?_, ?_, ?_, ?_, ?_⟩
  · obtain ⟨res, t2, heq, hs, hc, -, -⟩ := he.1.1
    exact ⟨res, t2, heq, hs, hc⟩
  · exact he.2.1
  · exact (he.2.2 10 (by decide) (by decide)).1 (by decide)
  · obtain ⟨svc2, res, heq, hh, hc, -, -, hn, -⟩ := hd.1.1
    exact ⟨svc2, res, heq, hh, hc, hn.trans (by decide)⟩
  · obtain ⟨svc2, res, heq, hh, -, hdm, -⟩ := hd.2.1
    exact ⟨svc2, res, heq, hh, hdm⟩

/-- Witness for C4 (amended) at a concrete input: 15 damage on a 10/10
combatant with no temporary HP. -/
theorem claim_C4_witness :
    (Backend.Combatant.take_damage
      { id := "c", current_hp := 10, max_hp := 10 } 15).1.death_saves_failure = 3 ∧
    Backend.processDeathSave
      (Backend.Combatant.take_damage { id := "c", current_hp := 10, max_hp := 10 } 15).1 7 =
      (Backend.Combatant.take_damage { id := "c", current_hp := 10, max_hp := 10 } 15).1 := by
  have h := claim_C4_massive_damage
    { id := "c", current_hp := 10, max_hp := 10 } 15 (by decide) (by decide) (by decide)
  exact ⟨h.1, h.2 7⟩

end TaleKeeper
